import Mathlib

/-!
# RooGenContext: generation planning and the per-event driver

A shallow embedding of `roofitcore/src/RooGenContext.cxx`:

* the constructor `RooGenContext::RooGenContext` (lines 33-135), which scans the
  requested variables, sorts them into `_uniformVars`, `_directVars` and
  `_otherVars`, asks the model which of the tentatively direct variables it can
  generate itself, and builds the accept/reject sampler;
* `RooGenContext::initGenerator` (lines 147-154);
* `RooGenContext::generateEvent` (lines 156-174).

Objects are records; the field `addr` stands for the address of the object, so
that pointer comparison (`server == direct`) is equality of records.  The
collaborating classes whose code is not part of the file (the model,
`RooAcceptReject`) appear through the member functions the file calls, taken as
parameters.
-/

namespace RooFit

/-- A node of the expression tree (`RooAbsArg`): its address, `GetName()`,
`isDerived()` and the value it currently holds. -/
structure RooAbsArg where
  addr : Nat
  name : String
  isDerived : Bool
  value : Int
deriving DecidableEq, Repr

/-- A `RooArgSet`, kept in insertion order. -/
abbrev RooArgSet := List RooAbsArg

namespace RooArgSet

/-- Modelled from the spec: `RooArgSet::find(name)`, the membership test of a
set that is unique by name. It returns the element with that name, or null. -/
def find (s : RooArgSet) (n : String) : Option RooAbsArg :=
  List.find? (fun a => a.name == n) s

/-- Membership by name: the test `find(name) != 0`. -/
def contains (s : RooArgSet) (n : String) : Bool :=
  (find s n).isSome

/-- Modelled from the spec: `RooArgSet::add(const RooAbsArg&)`, whose code is in
RooArgSet.cc. A variable set is unique by name, so an element whose name is
already present is not added. -/
def add (s : RooArgSet) (a : RooAbsArg) : RooArgSet :=
  if contains s a.name then s else s ++ [a]

/-- Modelled from the spec: `RooArgSet::add(const RooArgSet&)` (union), adding
the elements of `l` one by one. -/
def addAll (s l : RooArgSet) : RooArgSet :=
  List.foldl add s l

/-- Modelled from the spec: `RooArgSet::remove(const RooArgSet&)`
(set difference of a set that is unique by name). -/
def remove (s l : RooArgSet) : RooArgSet :=
  List.filter (fun a => !(contains l a.name)) s

/-- Modelled from the spec: `RooArgSet::removeAll()`, which empties the set. -/
def removeAll (_s : RooArgSet) : RooArgSet := []

/-- Modelled from the spec: `RooArgSet::getSize()`, the number of elements. -/
def getSize (s : RooArgSet) : Nat := List.length s

/-- Modelled from the spec: the assignment `theEvent= *subEvent`
(`RooAbsCollection::operator=`), which copies the fields of the sample into the
buffer: every element of `s` that has a same-named element in `other` takes
that element's value. -/
def assign (s other : RooArgSet) : RooArgSet :=
  List.map (fun e =>
    match find other e.name with
    | some t => { e with value := t.value }
    | none => e) s

end RooArgSet

/-- The cloned model `_pdfClone` with the member functions of `RooAbsPdf` and
`RooAbsArg` that `RooGenContext` calls on it. -/
structure RooAbsPdf where
  /-- `GetName()` -/
  name : String
  /-- `GetTitle()` -/
  title : String
  /-- `_cloneSet`: the snapshot of the model and of all nodes it depends on. -/
  cloneSet : RooArgSet
  /-- The servers of `_pdfClone`, in the order of `serverIterator()`. -/
  serverList : List RooAbsArg
  /-- `server->dependsOn(*arg)` -/
  dependsOn : RooAbsArg → RooAbsArg → Bool
  /-- `getGenerator(directVars, generatedVars)`: the code returned and the
  contents of `generatedVars` afterwards. -/
  getGenerator : RooArgSet → Int × RooArgSet
  /-- `getDependents(_theEvent)` -/
  getDependents : RooArgSet → RooArgSet
  /-- `generateEvent(code)`: what the generator does to the attached event
  buffer. -/
  generateEvent : Int → RooArgSet → RooArgSet

/-- Modelled from the spec: `RooAbsArg::findServer(name)` on `_pdfClone`, the
test whether the model reads a variable of that name itself. It returns the
server with that name, or null. -/
def RooAbsPdf.findServer (m : RooAbsPdf) (n : String) : Option RooAbsArg :=
  List.find? (fun a => a.name == n) m.serverList

/-- Lines written to `cout`. -/
inductive Msg where
  | cannotGenerateDerived (name : String)
  | uniformWarning (name : String)
  | constructorFailed
  | acceptRejectFailed
deriving DecidableEq, Repr

/-- The members the scan of lines 54-103 writes. -/
structure ScanState where
  isValid : Bool
  uniformVars : RooArgSet
  directVars : RooArgSet
  otherVars : RooArgSet
  log : List Msg
deriving DecidableEq, Repr

/-- The inner loop of lines 83-86 over the remaining servers:
`while(direct && (server= servers->Next()))`, skipping `direct` itself and
clearing `direct` when another server depends on `arg`. -/
def exclusiveLoop (m : RooAbsPdf) (arg : RooAbsArg) :
    List RooAbsArg → Option RooAbsArg → Option RooAbsArg
  | [], direct => direct
  | server :: rest, direct =>
    match direct with
    | none => none
    | some d =>
      if server = d then exclusiveLoop m arg rest (some d)
      else if m.dependsOn server arg then exclusiveLoop m arg rest none
      else exclusiveLoop m arg rest (some d)

/-- The test of line 79: `forceDirect==0 || !forceDirect->find(direct->GetName())`. -/
def checksExclusivity (forceDirect : Option RooArgSet) (direct : RooAbsArg) : Bool :=
  match forceDirect with
  | none => true
  | some fd => !(RooArgSet.contains fd direct.name)

/-- The value of `direct` at line 89, for the node `arg` found in `_cloneSet`. -/
def directAfterCheck (m : RooAbsPdf) (forceDirect : Option RooArgSet)
    (arg : RooAbsArg) : Option RooAbsArg :=
  match m.findServer arg.name with
  | none => none
  | some direct =>
    if checksExclusivity forceDirect direct then
      exclusiveLoop m arg m.serverList (some direct)
    else some direct

/-- One pass through the body of the loop, lines 59-102, for the requested
variable `tmp`. -/
def scanStep (m : RooAbsPdf) (forceDirect : Option RooArgSet)
    (tmp : RooAbsArg) (st : ScanState) : ScanState :=
  if tmp.isDerived then
    { st with isValid := false, log := st.log ++ [Msg.cannotGenerateDerived tmp.name] }
  else
    match RooArgSet.find m.cloneSet tmp.name with
    | none =>
      { st with uniformVars := RooArgSet.add st.uniformVars tmp,
                log := st.log ++ [Msg.uniformWarning tmp.name] }
    | some arg =>
      match directAfterCheck m forceDirect arg with
      | some _ => { st with directVars := RooArgSet.add st.directVars arg }
      | none => { st with otherVars := RooArgSet.add st.otherVars arg }

/-- The loop of line 58, `while(_isValid && (tmp= iterator->Next()))`, over the
variables the iterator has still to deliver. -/
def scanLoop (m : RooAbsPdf) (forceDirect : Option RooArgSet) :
    List RooAbsArg → ScanState → ScanState
  | [], st => st
  | tmp :: rest, st =>
    if st.isValid then scanLoop m forceDirect rest (scanStep m forceDirect tmp st)
    else st

/-- Lines 54-103: `_isValid= kTRUE` and the scan of `vars`. -/
def scanVars (m : RooAbsPdf) (forceDirect : Option RooArgSet) (vars : RooArgSet) : ScanState :=
  scanLoop m forceDirect vars
    { isValid := true, uniformVars := [], directVars := [], otherVars := [], log := [] }

/-- The three sets and the code as they stand after line 121, before
`_uniformVars` is merged into `_otherVars` at line 133: `residualVars` is
`_otherVars` at that point, the set removed from `depList` at line 125. -/
structure GenerationPlan where
  uniformVars : RooArgSet
  directVars : RooArgSet
  residualVars : RooArgSet
  generatorCode : Int
deriving DecidableEq, Repr

/-- The set handed to `getGenerator` at line 113: `_directVars` after the scan. -/
def tentativeDirect (m : RooAbsPdf) (forceDirect : Option RooArgSet) (vars : RooArgSet) :
    RooArgSet :=
  (scanVars m forceDirect vars).directVars

/-- The contents of `generatedVars` after line 113. -/
def generatedVars (m : RooAbsPdf) (forceDirect : Option RooArgSet) (vars : RooArgSet) :
    RooArgSet :=
  (m.getGenerator (tentativeDirect m forceDirect vars)).2

/-- Lines 112-121 on the state the scan left. -/
def finalizeDirect (m : RooAbsPdf) (st : ScanState) : GenerationPlan :=
  let r := m.getGenerator st.directVars
  let generated := r.2
  let directRest := RooArgSet.remove st.directVars generated
  let other := RooArgSet.addAll st.otherVars directRest
  { uniformVars := st.uniformVars,
    directVars := RooArgSet.addAll (RooArgSet.removeAll directRest) generated,
    residualVars := other,
    generatorCode := r.1 }

/-- The plan of a construction that passed the check of line 106; `none` when
the constructor returned at line 108. -/
def generationPlan (m : RooAbsPdf) (forceDirect : Option RooArgSet) (vars : RooArgSet) :
    Option GenerationPlan :=
  let st := scanVars m forceDirect vars
  if st.isValid then some (finalizeDirect m st) else none

/-- The arguments `RooRealIntegral` is constructed with at line 131. -/
structure RooRealIntegral where
  name : String
  title : String
  intVars : RooArgSet
  normSet : RooArgSet
deriving DecidableEq, Repr

/-- The arguments `RooAcceptReject` is constructed with at line 134. -/
structure RooAcceptReject where
  func : RooRealIntegral
  genVars : RooArgSet
  verbose : Bool
deriving DecidableEq, Repr

/-- The members of a `RooGenContext` after its constructor has run. `none` in
`_acceptRejectFunc` and `_generator` is the null pointer of the initialiser
list; `none` in `_code` is a `_code` that was never assigned. -/
structure RooGenContext where
  _isValid : Bool
  _uniformVars : RooArgSet
  _directVars : RooArgSet
  _otherVars : RooArgSet
  _code : Option Int
  _acceptRejectFunc : Option RooRealIntegral
  _generator : Option RooAcceptReject
  log : List Msg
deriving DecidableEq, Repr

/-- The member `isValid()`. -/
def RooGenContext.isValid (c : RooGenContext) : Bool := c._isValid

/-- The constructor, lines 33-135. `theEvent` is the member `_theEvent` that the
base class `RooAbsGenContext` set up before the body runs. -/
def RooGenContext.construct (m : RooAbsPdf) (vars : RooArgSet) (theEvent : RooArgSet)
    (verbose : Bool) (forceDirect : Option RooArgSet) : RooGenContext :=
  let st := scanVars m forceDirect vars
  if st.isValid then
    let p := finalizeDirect m st
    let depList := RooArgSet.remove (m.getDependents theEvent) p.residualVars
    let func : RooRealIntegral :=
      { name := m.name ++ "Reduced", title := m.title ++ " (Accept/Reject)",
        intVars := depList, normSet := vars }
    let other := RooArgSet.addAll p.residualVars p.uniformVars
    { _isValid := st.isValid,
      _uniformVars := p.uniformVars,
      _directVars := p.directVars,
      _otherVars := other,
      _code := some p.generatorCode,
      _acceptRejectFunc := some func,
      _generator := some { func := func, genVars := other, verbose := verbose },
      log := st.log }
  else
    { _isValid := st.isValid,
      _uniformVars := st.uniformVars,
      _directVars := st.directVars,
      _otherVars := st.otherVars,
      _code := none,
      _acceptRejectFunc := none,
      _generator := none,
      log := st.log ++ [Msg.constructorFailed] }

/-- What a call of `generateEvent` does, in order. -/
inductive Action where
  | acceptRejectCall (remaining : Int)
  | message (msg : Msg)
  | assignEvent (subEvent : RooArgSet)
  | pdfGenerateEvent (code : Int) (buffer : RooArgSet)
deriving DecidableEq, Repr

/-- The two ways `generateEvent` can use a member the constructor never set. -/
inductive Fault where
  | nullGenerator
  | unassignedCode
deriving DecidableEq, Repr

/-- The event buffer and the actions of a call that ran to its end. -/
structure Outcome where
  theEvent : RooArgSet
  actions : List Action
deriving DecidableEq, Repr

/-- Lines 171-173: the model's own generator, writing into the attached buffer. -/
def directPart (m : RooAbsPdf) (c : RooGenContext) (buffer : RooArgSet)
    (done : List Action) : Except Fault Outcome :=
  if RooArgSet.getSize c._directVars > 0 then
    match c._code with
    | none => Except.error Fault.unassignedCode
    | some code =>
      Except.ok { theEvent := m.generateEvent code buffer,
                  actions := done ++ [Action.pdfGenerateEvent code buffer] }
  else Except.ok { theEvent := buffer, actions := done }

/-- The member `generateEvent(theEvent, remaining)`, lines 156-174.
`acceptReject` is `RooAcceptReject::generateEvent`: the sub-event the sampler
returns, or `none` for a null pointer. The buffer the model was attached to is
`theEvent`. -/
def RooGenContext.generateEvent (m : RooAbsPdf) (c : RooGenContext)
    (acceptReject : RooAcceptReject → Int → Option RooArgSet)
    (theEvent : RooArgSet) (remaining : Int) : Except Fault Outcome :=
  if RooArgSet.getSize c._otherVars > 0 then
    match c._generator with
    | none => Except.error Fault.nullGenerator
    | some g =>
      match acceptReject g remaining with
      | none =>
        Except.ok { theEvent := theEvent,
                    actions := [Action.acceptRejectCall remaining,
                                Action.message Msg.acceptRejectFailed] }
      | some subEvent =>
        directPart m c (RooArgSet.assign theEvent subEvent)
          [Action.acceptRejectCall remaining, Action.assignEvent subEvent]
  else directPart m c theEvent []

/-- The part of `_pdfClone` that `initGenerator` changes: the objects its inputs
read from and write to, the error counter, and the value a reset gives it. -/
structure PdfCloneState where
  inputs : List RooAbsArg
  errorCount : Nat
  resetValue : Nat
deriving DecidableEq, Repr

/-- Modelled from the spec: `recursiveRedirectServers(theEvent, kFALSE)`, whose
code is in RooAbsArg.cc. It rebinds the inputs of the model to the event
buffer: every input with a same-named element in the buffer is bound to that
element, and an input the buffer does not hold stays as it is. -/
def recursiveRedirectServers (s : PdfCloneState) (theEvent : RooArgSet) : PdfCloneState :=
  { s with inputs := List.map (fun i =>
      match RooArgSet.find theEvent i.name with
      | some e => e
      | none => i) s.inputs }

/-- Modelled from the spec: `resetErrorCounters()`, whose code is in
RooAbsPdf.cc. It resets the error counter of the model. -/
def resetErrorCounters (s : PdfCloneState) : PdfCloneState :=
  { s with errorCount := s.resetValue }

/-- The member `initGenerator(theEvent)`, lines 147-154, on the state of
`_pdfClone`. -/
def RooGenContext.initGenerator (_c : RooGenContext) (s : PdfCloneState)
    (theEvent : RooArgSet) : PdfCloneState :=
  resetErrorCounters (recursiveRedirectServers s theEvent)

/-- How the scan sorts a requested name. -/
inductive VarClass where
  | uniform
  | direct
  | other
deriving DecidableEq, Repr

/-- The class the body of the scan gives to a requested variable named `n` that
is not derived: the branch of lines 68-101 it takes. -/
def classOf (m : RooAbsPdf) (forceDirect : Option RooArgSet) (n : String) : VarClass :=
  match RooArgSet.find m.cloneSet n with
  | none => VarClass.uniform
  | some arg =>
    match directAfterCheck m forceDirect arg with
    | some _ => VarClass.direct
    | none => VarClass.other

/-- Some server other than `d` depends on `arg`. -/
def otherServerDepends (m : RooAbsPdf) (arg d : RooAbsArg) (l : List RooAbsArg) : Bool :=
  List.any l (fun s => !(decide (s = d)) && m.dependsOn s arg)

/-- The claim that a plan partitions the requested variables: the three sets
share no name and the names they hold are the requested names. -/
def PlanPartitions (p : GenerationPlan) (vars : RooArgSet) : Prop :=
  (∀ n, ¬ (RooArgSet.contains p.uniformVars n = true ∧ RooArgSet.contains p.directVars n = true)) ∧
  (∀ n, ¬ (RooArgSet.contains p.uniformVars n = true ∧
            RooArgSet.contains p.residualVars n = true)) ∧
  (∀ n, ¬ (RooArgSet.contains p.directVars n = true ∧
            RooArgSet.contains p.residualVars n = true)) ∧
  (∀ n, (RooArgSet.contains p.uniformVars n = true ∨ RooArgSet.contains p.directVars n = true ∨
          RooArgSet.contains p.residualVars n = true) ↔ RooArgSet.contains vars n = true)

/-- The model's generator reports only variables it was asked about: the names
in `generatedVars` are names of the set handed to `getGenerator`. -/
def GeneratorReportsSubset (m : RooAbsPdf) (forceDirect : Option RooArgSet)
    (vars : RooArgSet) : Prop :=
  ∀ n, RooArgSet.contains (generatedVars m forceDirect vars) n = true →
    RooArgSet.contains (tentativeDirect m forceDirect vars) n = true

/-- The values `remaining` of the calls of `RooAcceptReject::generateEvent`
among the actions of a call. -/
def samplerCalls : List Action → List Int
  | [] => []
  | Action.acceptRejectCall r :: rest => r :: samplerCalls rest
  | _ :: rest => samplerCalls rest

/-- The codes of the calls of the model's `generateEvent` among the actions of a
call. -/
def generatorCalls : List Action → List Int
  | [] => []
  | Action.pdfGenerateEvent code _ :: rest => code :: generatorCalls rest
  | _ :: rest => generatorCalls rest

/-- The names of the variables reported as derived among the lines written to
`cout`. -/
def derivedErrors : List Msg → List String
  | [] => []
  | Msg.cannotGenerateDerived n :: rest => n :: derivedErrors rest
  | _ :: rest => derivedErrors rest

/-- The names reported with the uniform-distribution warning among the lines
written to `cout`. -/
def uniformWarnings : List Msg → List String
  | [] => []
  | Msg.uniformWarning n :: rest => n :: uniformWarnings rest
  | _ :: rest => uniformWarnings rest

/-- The model's generator answers by the names of the set it is asked about, not
by the order in which the set holds them. -/
def GeneratorIgnoresOrder (m : RooAbsPdf) : Prop :=
  ∀ s t : RooArgSet, (∀ n, RooArgSet.contains s n = RooArgSet.contains t n) →
    (m.getGenerator s).1 = (m.getGenerator t).1 ∧
    ∀ n, RooArgSet.contains (m.getGenerator s).2 n = RooArgSet.contains (m.getGenerator t).2 n

/-- Modelled from the spec: the model's full dependency set
(`dependencyClosure()`), everything the model reads from: the nodes of the
snapshot other than the model itself. -/
def RooAbsPdf.dependencySet (m : RooAbsPdf) : RooArgSet :=
  List.filter (fun a => !(a.name == m.name)) m.cloneSet

/-- The dependents of the model are nodes of its snapshot. -/
def DependentsInSnapshot (m : RooAbsPdf) (theEvent : RooArgSet) : Prop :=
  ∀ n, RooArgSet.contains (m.getDependents theEvent) n = true →
    RooArgSet.contains m.cloneSet n = true

/-! ### Example objects -/

/-- The requested variable `x`. -/
def varX : RooAbsArg := { addr := 1, name := "x", isDerived := false, value := 0 }

/-- The requested variable `y`. -/
def varY : RooAbsArg := { addr := 2, name := "y", isDerived := false, value := 0 }

/-- The requested variable `w`. -/
def varW : RooAbsArg := { addr := 3, name := "w", isDerived := false, value := 0 }

/-- The requested variable `z`, which no example model depends on. -/
def varZ : RooAbsArg := { addr := 4, name := "z", isDerived := false, value := 0 }

/-- A requested variable that is derived. -/
def varD : RooAbsArg := { addr := 5, name := "d", isDerived := true, value := 0 }

/-- The clone of `x` in the snapshot. -/
def cloneX : RooAbsArg := { addr := 11, name := "x", isDerived := false, value := 0 }

/-- The clone of `y` in the snapshot. -/
def cloneY : RooAbsArg := { addr := 12, name := "y", isDerived := false, value := 0 }

/-- The clone of `w` in the snapshot. -/
def cloneW : RooAbsArg := { addr := 13, name := "w", isDerived := false, value := 0 }

/-- The function node `g`. -/
def nodeG : RooAbsArg := { addr := 16, name := "g", isDerived := true, value := 0 }

/-- The function node `h`. -/
def nodeH : RooAbsArg := { addr := 17, name := "h", isDerived := true, value := 0 }

/-- The model node `f`. -/
def nodeF : RooAbsArg := { addr := 18, name := "f", isDerived := true, value := 0 }

/-- The model `f(x, g(x,y), w)` with a generator for `w`: its servers are `x`,
`g` and `w`, and `g` depends on `x` and `y`. The generator is parametrised so
that the examples can vary what the model reports. -/
def mixedModelWith (gen : RooArgSet → Int × RooArgSet) : RooAbsPdf :=
  { name := "f", title := "f(x,g(x,y),w)",
    cloneSet := [nodeF, nodeG, cloneX, cloneY, cloneW],
    serverList := [cloneX, nodeG, cloneW],
    dependsOn := fun s a =>
      s.name == a.name || (s.name == "g" && (a.name == "x" || a.name == "y")),
    getGenerator := gen,
    getDependents := fun e =>
      List.filter (fun a => a.name == "x" || a.name == "y" || a.name == "w") e,
    generateEvent := fun _ b =>
      List.map (fun e => if e.name == "w" then { e with value := 42 } else e) b }

/-- The model `f(x, g(x,y), w)` whose generator reports `w` when asked about it
and nothing otherwise. -/
def mixedModel : RooAbsPdf :=
  mixedModelWith (fun d => if RooArgSet.contains d "w" then (3, [cloneW]) else (0, []))

/-- The model `f(x, g(x,y), w)` with a generator that reports `z`, a variable
the model does not depend on. -/
def strayModel : RooAbsPdf :=
  mixedModelWith (fun _ => (3, [varZ]))

/-- The model `f(x, g(x,y), w)` with no generator of its own: it reports nothing. -/
def shyModel : RooAbsPdf :=
  mixedModelWith (fun _ => (0, []))

/-- A generator for `x` and `y` together, with code 7. -/
def genXY (d : RooArgSet) : Int × RooArgSet :=
  if RooArgSet.contains d "x" && RooArgSet.contains d "y" then (7, d) else (0, [])

/-- The product `f(x,y) = g(x) * h(y)`: the servers of `f` are the factors `g`
and `h`; `x` is a server of `g` only and `y` of `h` only. -/
def productModel : RooAbsPdf :=
  { name := "f", title := "g(x)*h(y)",
    cloneSet := [nodeF, nodeG, nodeH, cloneX, cloneY],
    serverList := [nodeG, nodeH],
    dependsOn := fun s a =>
      s.name == a.name || (s.name == "g" && a.name == "x") || (s.name == "h" && a.name == "y"),
    getGenerator := genXY,
    getDependents := fun e => List.filter (fun a => a.name == "x" || a.name == "y") e,
    generateEvent := fun _ b => b }

/-- A density `f(x,y)` that reads `x` and `y` themselves: both are servers of `f`. -/
def flatModel : RooAbsPdf :=
  { name := "f", title := "f(x,y)",
    cloneSet := [nodeF, cloneX, cloneY],
    serverList := [cloneX, cloneY],
    dependsOn := fun s a => s.name == a.name,
    getGenerator := genXY,
    getDependents := fun e => List.filter (fun a => a.name == "x" || a.name == "y") e,
    generateEvent := fun _ b => List.map (fun e => { e with value := 9 }) b }

/-- A sampler that returns the sub-event `x = 5, y = 6` at every call. -/
def fixedSampler : RooAcceptReject → Int → Option RooArgSet :=
  fun _ _ => some [{ cloneX with value := 5 }, { cloneY with value := 6 }]

/-- A sampler that fails at every call. -/
def failingSampler : RooAcceptReject → Int → Option RooArgSet :=
  fun _ _ => none

/-- An event buffer with the fields `x`, `y` and `w`, holding 1, 2 and 3. -/
def bufferXYW : RooArgSet :=
  [{ varX with value := 1 }, { varY with value := 2 }, { varW with value := 3 }]

/-- The plan of `mixedModel` for the request `x, y, w, z`. -/
def mixedPlan : GenerationPlan :=
  { uniformVars := [varZ], directVars := [cloneW], residualVars := [cloneX, cloneY],
    generatorCode := 3 }

/-- The sub-event `x = 5, y = 6`. -/
def sampleXY : RooArgSet := [{ cloneX with value := 5 }, { cloneY with value := 6 }]

/-- A second requested variable that is derived. -/
def varE : RooAbsArg := { addr := 6, name := "e", isDerived := true, value := 0 }

/-- A density `f(x,y)` with servers `x` and `y` whose generator reports the first
variable of the set it is asked about, and no other. -/
def firstOnlyModel : RooAbsPdf :=
  { name := "f", title := "f(x,y)",
    cloneSet := [nodeF, cloneX, cloneY],
    serverList := [cloneX, cloneY],
    dependsOn := fun s a => s.name == a.name,
    getGenerator := fun d => (1, List.take 1 d),
    getDependents := fun e => List.filter (fun a => a.name == "x" || a.name == "y") e,
    generateEvent := fun _ b => b }

/-- An integral that runs over `w` is taken not to be well-defined: the range of
`w` is unbounded. -/
def integralWellDefined (f : RooRealIntegral) : Bool :=
  !(RooArgSet.contains f.intVars "w")

/-- A state of `_pdfClone` whose inputs are still the clones of the snapshot. -/
def freshState : PdfCloneState :=
  { inputs := [cloneX, cloneY, cloneW], errorCount := 4, resetValue := 10 }

/-! ## Variable sets: membership by name -/

namespace RooArgSet

theorem find_name {s : RooArgSet} {n : String} {a : RooAbsArg}
    (h : find s n = some a) : a.name = n := by
  unfold find at h
  have h1 := List.find?_some h
  simpa using h1

theorem contains_nil (n : String) : contains [] n = false := rfl

theorem contains_cons (a : RooAbsArg) (s : RooArgSet) (n : String) :
    contains (a :: s) n = (a.name == n || contains s n) := by
  unfold contains find
  by_cases h : a.name = n
  · simp [List.find?_cons, h]
  · simp [List.find?_cons, h]

theorem contains_append (s t : RooArgSet) (n : String) :
    contains (s ++ t) n = (contains s n || contains t n) := by
  induction s with
  | nil => simp [contains_nil]
  | cons a s ih => simp [contains_cons, ih, Bool.or_assoc]

theorem contains_add (s : RooArgSet) (a : RooAbsArg) (n : String) :
    contains (add s a) n = (contains s n || a.name == n) := by
  unfold add
  by_cases h : contains s a.name = true
  · rw [if_pos h]
    by_cases hn : a.name = n
    · subst hn; simp [h]
    · simp [hn]
  · rw [if_neg h, contains_append, contains_cons, contains_nil]
    simp

theorem contains_addAll (s l : RooArgSet) (n : String) :
    contains (addAll s l) n = (contains s n || contains l n) := by
  induction l generalizing s with
  | nil => simp [addAll, contains_nil]
  | cons a l ih =>
    have : addAll s (a :: l) = addAll (add s a) l := rfl
    rw [this, ih, contains_add, contains_cons, Bool.or_assoc]

theorem contains_remove (s l : RooArgSet) (n : String) :
    contains (remove s l) n = (contains s n && !(contains l n)) := by
  induction s with
  | nil => simp [remove, contains_nil]
  | cons a s ih =>
    have hr : remove (a :: s) l = if (!(contains l a.name)) = true then a :: remove s l else remove s l := by
      simp [remove, List.filter_cons]
    rw [hr]
    by_cases hn : a.name = n
    · subst hn
      cases hl : contains l a.name <;> simp [contains_cons, ih, hl]
    · have hb : (a.name == n) = false := by simpa using hn
      cases hl : contains l a.name <;> simp [contains_cons, ih, hl, hb]

theorem find_cons (a : RooAbsArg) (s : RooArgSet) (n : String) :
    find (a :: s) n = if a.name = n then some a else find s n := by
  unfold find
  by_cases h : a.name = n <;> simp [List.find?_cons, h]

theorem find_eq_none_iff (s : RooArgSet) (n : String) :
    find s n = none ↔ contains s n = false := by
  unfold contains
  cases find s n <;> simp

theorem find_append (s t : RooArgSet) (n : String) :
    find (s ++ t) n = match find s n with
      | some a => some a
      | none => find t n := by
  induction s with
  | nil => simp [find]
  | cons a s ih =>
    rw [List.cons_append, find_cons, find_cons]
    by_cases h : a.name = n
    · simp [h]
    · simp [h, ih]

theorem find_add (s : RooArgSet) (a : RooAbsArg) (n : String) :
    find (add s a) n = match find s n with
      | some b => some b
      | none => if a.name = n then some a else none := by
  unfold add
  by_cases h : contains s a.name = true
  · rw [if_pos h]
    cases hf : find s n with
    | some b => rfl
    | none =>
      have hc := (find_eq_none_iff s n).1 hf
      have hne : a.name ≠ n := by
        intro e; rw [e] at h; rw [h] at hc; exact Bool.noConfusion hc
      simp [hne]
  · rw [if_neg h, find_append, find_cons]
    cases hf : find s n <;> simp [find]

theorem find_addAll (s l : RooArgSet) (n : String) :
    find (addAll s l) n = match find s n with
      | some b => some b
      | none => find l n := by
  induction l generalizing s with
  | nil =>
    show find s n = _
    cases hf : find s n <;> rfl
  | cons a l ih =>
    have : addAll s (a :: l) = addAll (add s a) l := rfl
    rw [this, ih, find_add, find_cons]
    cases hf : find s n with
    | some b => rfl
    | none =>
      by_cases h : a.name = n <;> simp [h]

end RooArgSet

/-! ## The scan of the requested variables -/

theorem exclusiveLoop_none (m : RooAbsPdf) (arg : RooAbsArg) (l : List RooAbsArg) :
    exclusiveLoop m arg l none = none := by
  cases l <;> rfl

theorem exclusiveLoop_some (m : RooAbsPdf) (arg d : RooAbsArg) (l : List RooAbsArg) :
    exclusiveLoop m arg l (some d) =
      if otherServerDepends m arg d l = true then none else some d := by
  induction l with
  | nil => simp [exclusiveLoop, otherServerDepends]
  | cons s l ih =>
    unfold otherServerDepends at ih ⊢
    by_cases hs : s = d
    · simp [exclusiveLoop, hs, List.any_cons]
      simpa [hs] using ih
    · by_cases hd : m.dependsOn s arg = true
      · simp [exclusiveLoop, hs, hd, List.any_cons, exclusiveLoop_none]
      · simp [exclusiveLoop, hs, hd, List.any_cons]
        simpa using ih

theorem findServer_name {m : RooAbsPdf} {n : String} {d : RooAbsArg}
    (h : m.findServer n = some d) : d.name = n ∧ d ∈ m.serverList := by
  unfold RooAbsPdf.findServer at h
  have h1 := List.find?_some h
  have h2 := List.mem_of_find?_eq_some h
  exact ⟨by simpa using h1, h2⟩

theorem scanStep_cases (m : RooAbsPdf) (fd : Option RooArgSet) (tmp : RooAbsArg)
    (st : ScanState) :
    (tmp.isDerived = true ∧ scanStep m fd tmp st =
        { st with isValid := false,
                  log := st.log ++ [Msg.cannotGenerateDerived tmp.name] }) ∨
    (tmp.isDerived = false ∧ classOf m fd tmp.name = VarClass.uniform ∧
      scanStep m fd tmp st =
        { st with uniformVars := RooArgSet.add st.uniformVars tmp,
                  log := st.log ++ [Msg.uniformWarning tmp.name] }) ∨
    (tmp.isDerived = false ∧ classOf m fd tmp.name = VarClass.direct ∧
      ∃ arg, RooArgSet.find m.cloneSet tmp.name = some arg ∧ arg.name = tmp.name ∧
        scanStep m fd tmp st = { st with directVars := RooArgSet.add st.directVars arg }) ∨
    (tmp.isDerived = false ∧ classOf m fd tmp.name = VarClass.other ∧
      ∃ arg, RooArgSet.find m.cloneSet tmp.name = some arg ∧ arg.name = tmp.name ∧
        scanStep m fd tmp st = { st with otherVars := RooArgSet.add st.otherVars arg }) := by
  cases hd : tmp.isDerived with
  | true => left; simp [scanStep, hd]
  | false =>
    right
    cases hf : RooArgSet.find m.cloneSet tmp.name with
    | none => left; simp [scanStep, classOf, hd, hf]
    | some arg =>
      right
      have hname := RooArgSet.find_name hf
      cases hc : directAfterCheck m fd arg with
      | some d => left; simp [scanStep, classOf, hd, hf, hc, hname]
      | none => right; simp [scanStep, classOf, hd, hf, hc, hname]

theorem bool_or_and_aux (p q r c : Bool) :
    (p || q && c || r && c) = (p || (q || r) && c) := by
  cases p <;> cases q <;> cases r <;> cases c <;> rfl

theorem scanLoop_invalid (m : RooAbsPdf) (fd : Option RooArgSet) (l : List RooAbsArg)
    (st : ScanState) (h : st.isValid = false) : scanLoop m fd l st = st := by
  cases l with
  | nil => rfl
  | cons a l => simp [scanLoop, h]

theorem scanLoop_cons_valid (m : RooAbsPdf) (fd : Option RooArgSet) (a : RooAbsArg)
    (l : List RooAbsArg) (st : ScanState) (h : st.isValid = true) :
    scanLoop m fd (a :: l) st = scanLoop m fd l (scanStep m fd a st) := by
  simp [scanLoop, h]

theorem scanLoop_append (m : RooAbsPdf) (fd : Option RooArgSet) (l1 l2 : List RooAbsArg)
    (st : ScanState) :
    scanLoop m fd (l1 ++ l2) st = scanLoop m fd l2 (scanLoop m fd l1 st) := by
  induction l1 generalizing st with
  | nil => rfl
  | cons a l ih =>
    cases hv : st.isValid with
    | true =>
      rw [List.cons_append, scanLoop_cons_valid m fd a _ st hv,
        scanLoop_cons_valid m fd a _ st hv, ih]
    | false =>
      rw [scanLoop_invalid m fd _ st hv, scanLoop_invalid m fd _ st hv,
        scanLoop_invalid m fd _ st hv]

/-- What one pass adds: a set only grows, and a name enters a set only when it
is the name of the scanned variable and has the class of that set. -/
theorem scanStep_sets (m : RooAbsPdf) (fd : Option RooArgSet) (tmp : RooAbsArg)
    (st : ScanState) (h : tmp.isDerived = false) (n : String) :
    (scanStep m fd tmp st).isValid = st.isValid ∧
    RooArgSet.contains (scanStep m fd tmp st).uniformVars n =
      (RooArgSet.contains st.uniformVars n ||
        (tmp.name == n && decide (classOf m fd n = VarClass.uniform))) ∧
    RooArgSet.contains (scanStep m fd tmp st).directVars n =
      (RooArgSet.contains st.directVars n ||
        (tmp.name == n && decide (classOf m fd n = VarClass.direct))) ∧
    RooArgSet.contains (scanStep m fd tmp st).otherVars n =
      (RooArgSet.contains st.otherVars n ||
        (tmp.name == n && decide (classOf m fd n = VarClass.other))) := by
  rcases scanStep_cases m fd tmp st with ⟨hd, _⟩ | ⟨_, hc, he⟩ | ⟨_, hc, arg, _, hn, he⟩ |
      ⟨_, hc, arg, _, hn, he⟩
  · rw [h] at hd; exact Bool.noConfusion hd
  all_goals
    rw [he]
    by_cases hname : tmp.name = n
    · subst hname
      simp [RooArgSet.contains_add, hc, *]
    · have hb : (tmp.name == n) = false := by simpa using hname
      simp [RooArgSet.contains_add, hb, *]

/-- The scan of variables none of which is derived: it stays valid and each set
holds the scanned names of its class, next to what it held before. -/
theorem scanLoop_sets (m : RooAbsPdf) (fd : Option RooArgSet) (vars : RooArgSet)
    (hall : ∀ u ∈ vars, u.isDerived = false) (st : ScanState) (hst : st.isValid = true)
    (n : String) :
    (scanLoop m fd vars st).isValid = true ∧
    RooArgSet.contains (scanLoop m fd vars st).uniformVars n =
      (RooArgSet.contains st.uniformVars n ||
        (RooArgSet.contains vars n && decide (classOf m fd n = VarClass.uniform))) ∧
    RooArgSet.contains (scanLoop m fd vars st).directVars n =
      (RooArgSet.contains st.directVars n ||
        (RooArgSet.contains vars n && decide (classOf m fd n = VarClass.direct))) ∧
    RooArgSet.contains (scanLoop m fd vars st).otherVars n =
      (RooArgSet.contains st.otherVars n ||
        (RooArgSet.contains vars n && decide (classOf m fd n = VarClass.other))) := by
  induction vars generalizing st with
  | nil => simp [scanLoop, hst, RooArgSet.contains_nil]
  | cons a l ih =>
    have ha : a.isDerived = false := hall a (List.mem_cons_self a l)
    have hl : ∀ u ∈ l, u.isDerived = false := fun u hu => hall u (List.mem_cons_of_mem a hu)
    obtain ⟨hv, hu, hd, ho⟩ := scanStep_sets m fd a st ha n
    have hst1 : (scanStep m fd a st).isValid = true := by rw [hv, hst]
    obtain ⟨iv, iu, id, io⟩ := ih hl (scanStep m fd a st) hst1
    rw [scanLoop_cons_valid m fd a l st hst]
    refine ⟨iv, ?_, ?_, ?_⟩
    · rw [iu, hu, RooArgSet.contains_cons]; exact bool_or_and_aux _ _ _ _
    · rw [id, hd, RooArgSet.contains_cons]; exact bool_or_and_aux _ _ _ _
    · rw [io, ho, RooArgSet.contains_cons]; exact bool_or_and_aux _ _ _ _

theorem scanStep_derived (m : RooAbsPdf) (fd : Option RooArgSet) (tmp : RooAbsArg)
    (st : ScanState) (h : tmp.isDerived = true) :
    scanStep m fd tmp st =
      ({ st with isValid := false,
                 log := st.log ++ [Msg.cannotGenerateDerived tmp.name] } : ScanState) := by
  simp [scanStep, h]

/-- Any scan, valid or not: the sets only grow, and what enters a set has the
class of that set. -/
theorem scanLoop_bounds (m : RooAbsPdf) (fd : Option RooArgSet) (vars : RooArgSet)
    (st : ScanState) (n : String) :
    (RooArgSet.contains st.uniformVars n = true →
      RooArgSet.contains (scanLoop m fd vars st).uniformVars n = true) ∧
    (RooArgSet.contains (scanLoop m fd vars st).uniformVars n = true →
      RooArgSet.contains st.uniformVars n = true ∨ classOf m fd n = VarClass.uniform) ∧
    (RooArgSet.contains (scanLoop m fd vars st).directVars n = true →
      RooArgSet.contains st.directVars n = true ∨ classOf m fd n = VarClass.direct) ∧
    (RooArgSet.contains (scanLoop m fd vars st).otherVars n = true →
      RooArgSet.contains st.otherVars n = true ∨ classOf m fd n = VarClass.other) := by
  induction vars generalizing st with
  | nil => exact ⟨fun h => h, Or.inl, Or.inl, Or.inl⟩
  | cons a l ih =>
    cases hst : st.isValid with
    | false =>
      rw [scanLoop_invalid m fd _ st hst]
      exact ⟨fun h => h, Or.inl, Or.inl, Or.inl⟩
    | true =>
      rw [scanLoop_cons_valid m fd a l st hst]
      obtain ⟨i1, i2, i3, i4⟩ := ih (scanStep m fd a st)
      cases ha : a.isDerived with
      | true =>
        rw [scanStep_derived m fd a st ha] at i1 i2 i3 i4 ⊢
        exact ⟨i1, i2, i3, i4⟩
      | false =>
        obtain ⟨_, hu, hd, ho⟩ := scanStep_sets m fd a st ha n
        refine ⟨?_, ?_, ?_, ?_⟩
        · intro h; apply i1; rw [hu, h]; rfl
        · intro h
          rcases i2 h with h1 | h1
          · rw [hu] at h1
            simp only [Bool.or_eq_true, Bool.and_eq_true, decide_eq_true_eq] at h1
            rcases h1 with h1 | ⟨_, h1⟩
            · exact Or.inl h1
            · exact Or.inr h1
          · exact Or.inr h1
        · intro h
          rcases i3 h with h1 | h1
          · rw [hd] at h1
            simp only [Bool.or_eq_true, Bool.and_eq_true, decide_eq_true_eq] at h1
            rcases h1 with h1 | ⟨_, h1⟩
            · exact Or.inl h1
            · exact Or.inr h1
          · exact Or.inr h1
        · intro h
          rcases i4 h with h1 | h1
          · rw [ho] at h1
            simp only [Bool.or_eq_true, Bool.and_eq_true, decide_eq_true_eq] at h1
            rcases h1 with h1 | ⟨_, h1⟩
            · exact Or.inl h1
            · exact Or.inr h1
          · exact Or.inr h1

/-! ## The constructor -/

theorem RooArgSet.contains_of_mem {s : RooArgSet} {a : RooAbsArg} (h : a ∈ s) :
    RooArgSet.contains s a.name = true := by
  induction s with
  | nil => cases h
  | cons b s ih =>
    rw [RooArgSet.contains_cons]
    rcases List.mem_cons.1 h with h1 | h1
    · subst h1; simp
    · rw [ih h1]; simp

theorem scanLoop_isValid_iff (m : RooAbsPdf) (fd : Option RooArgSet) (vars : RooArgSet)
    (st : ScanState) (hst : st.isValid = true) :
    (scanLoop m fd vars st).isValid = true ↔ ∀ u ∈ vars, u.isDerived = false := by
  induction vars generalizing st with
  | nil => simp [scanLoop, hst]
  | cons a l ih =>
    rw [scanLoop_cons_valid m fd a l st hst]
    cases ha : a.isDerived with
    | true =>
      have hinv : (scanStep m fd a st).isValid = false := by
        rw [scanStep_derived m fd a st ha]
      rw [scanLoop_invalid m fd l _ hinv, hinv]
      constructor
      · intro h; exact Bool.noConfusion h
      · intro h
        have := h a (List.mem_cons_self a l)
        rw [ha] at this; exact Bool.noConfusion this
    | false =>
      have hv : (scanStep m fd a st).isValid = true := by
        rw [(scanStep_sets m fd a st ha "").1, hst]
      rw [ih (scanStep m fd a st) hv]
      constructor
      · intro h u hu
        rcases List.mem_cons.1 hu with h1 | h1
        · rw [h1]; exact ha
        · exact h u h1
      · intro h u hu
        exact h u (List.mem_cons_of_mem a hu)

theorem scanVars_isValid_iff (m : RooAbsPdf) (fd : Option RooArgSet) (vars : RooArgSet) :
    (scanVars m fd vars).isValid = true ↔ ∀ u ∈ vars, u.isDerived = false :=
  scanLoop_isValid_iff m fd vars _ rfl

/-- The sets of a scan without a derived variable, by name. -/
theorem scanVars_sets (m : RooAbsPdf) (fd : Option RooArgSet) (vars : RooArgSet)
    (hall : ∀ u ∈ vars, u.isDerived = false) (n : String) :
    RooArgSet.contains (scanVars m fd vars).uniformVars n =
      (RooArgSet.contains vars n && decide (classOf m fd n = VarClass.uniform)) ∧
    RooArgSet.contains (scanVars m fd vars).directVars n =
      (RooArgSet.contains vars n && decide (classOf m fd n = VarClass.direct)) ∧
    RooArgSet.contains (scanVars m fd vars).otherVars n =
      (RooArgSet.contains vars n && decide (classOf m fd n = VarClass.other)) := by
  obtain ⟨_, h1, h2, h3⟩ := scanLoop_sets m fd vars hall
    { isValid := true, uniformVars := [], directVars := [], otherVars := [], log := [] } rfl n
  exact ⟨by simpa [RooArgSet.contains_nil] using h1, by simpa [RooArgSet.contains_nil] using h2,
    by simpa [RooArgSet.contains_nil] using h3⟩

/-- The sets after lines 112-121, by name. -/
theorem finalizeDirect_sets (m : RooAbsPdf) (st : ScanState) (n : String) :
    (finalizeDirect m st).uniformVars = st.uniformVars ∧
    RooArgSet.find (finalizeDirect m st).directVars n =
      RooArgSet.find (m.getGenerator st.directVars).2 n ∧
    RooArgSet.contains (finalizeDirect m st).residualVars n =
      (RooArgSet.contains st.otherVars n ||
        (RooArgSet.contains st.directVars n &&
          !(RooArgSet.contains (m.getGenerator st.directVars).2 n))) := by
  refine ⟨rfl, ?_, ?_⟩
  · show RooArgSet.find (RooArgSet.addAll [] _) n = _
    rw [RooArgSet.find_addAll]
    rfl
  · show RooArgSet.contains (RooArgSet.addAll st.otherVars _) n = _
    rw [RooArgSet.contains_addAll, RooArgSet.contains_remove]

theorem generationPlan_valid (m : RooAbsPdf) (fd : Option RooArgSet) (vars : RooArgSet)
    (hall : ∀ u ∈ vars, u.isDerived = false) :
    generationPlan m fd vars = some (finalizeDirect m (scanVars m fd vars)) := by
  have h := (scanVars_isValid_iff m fd vars).2 hall
  simp [generationPlan, h]

/-- The members of a context whose construction passed the check of line 106. -/
theorem construct_valid (m : RooAbsPdf) (vars theEvent : RooArgSet) (verbose : Bool)
    (fd : Option RooArgSet) (hall : ∀ u ∈ vars, u.isDerived = false) :
    (RooGenContext.construct m vars theEvent verbose fd)._isValid = true ∧
    (RooGenContext.construct m vars theEvent verbose fd)._uniformVars =
      (finalizeDirect m (scanVars m fd vars)).uniformVars ∧
    (RooGenContext.construct m vars theEvent verbose fd)._directVars =
      (finalizeDirect m (scanVars m fd vars)).directVars ∧
    (RooGenContext.construct m vars theEvent verbose fd)._otherVars =
      RooArgSet.addAll (finalizeDirect m (scanVars m fd vars)).residualVars
        (finalizeDirect m (scanVars m fd vars)).uniformVars ∧
    (RooGenContext.construct m vars theEvent verbose fd)._code =
      some (finalizeDirect m (scanVars m fd vars)).generatorCode ∧
    ∃ g, (RooGenContext.construct m vars theEvent verbose fd)._generator = some g := by
  have h := (scanVars_isValid_iff m fd vars).2 hall
  simp [RooGenContext.construct, h]

/-- The members of a context whose constructor returned at line 108. -/
theorem construct_invalid (m : RooAbsPdf) (vars theEvent : RooArgSet) (verbose : Bool)
    (fd : Option RooArgSet) (h : (scanVars m fd vars).isValid = false) :
    (RooGenContext.construct m vars theEvent verbose fd)._isValid = false ∧
    (RooGenContext.construct m vars theEvent verbose fd)._uniformVars =
      (scanVars m fd vars).uniformVars ∧
    (RooGenContext.construct m vars theEvent verbose fd)._directVars =
      (scanVars m fd vars).directVars ∧
    (RooGenContext.construct m vars theEvent verbose fd)._otherVars =
      (scanVars m fd vars).otherVars ∧
    (RooGenContext.construct m vars theEvent verbose fd)._code = none ∧
    (RooGenContext.construct m vars theEvent verbose fd)._generator = none := by
  simp [RooGenContext.construct, h]

/-- A requested name some other server depends on is never tentatively direct. -/
theorem classOf_other_of_depends (m : RooAbsPdf) (fd : Option RooArgSet) (n : String)
    (a s : RooAbsArg) (hnode : RooArgSet.find m.cloneSet n = some a)
    (hforce : ∀ fdset, fd = some fdset → RooArgSet.contains fdset n = false)
    (hs : s ∈ m.serverList) (hself : m.findServer n ≠ some s)
    (hdep : m.dependsOn s a = true) :
    classOf m fd n = VarClass.other := by
  have hname := RooArgSet.find_name hnode
  have hdac : directAfterCheck m fd a = none := by
    unfold directAfterCheck
    rw [hname]
    cases hfs : m.findServer n with
    | none => rfl
    | some d =>
      have hd := (findServer_name hfs).1
      have hce : checksExclusivity fd d = true := by
        unfold checksExclusivity
        cases hfd : fd with
        | none => rfl
        | some fdset => simp [hd, hforce fdset hfd]
      have hsd : s ≠ d := by
        intro e; apply hself; rw [hfs, e]
      have hany : otherServerDepends m a d m.serverList = true := by
        unfold otherServerDepends
        rw [List.any_eq_true]
        exact ⟨s, hs, by simp [hsd, hdep]⟩
      simp [hce, exclusiveLoop_some, hany]
  unfold classOf
  rw [hnode]
  simp [hdac]

/-- A server no other server shares its variable with stays direct. -/
theorem directAfterCheck_of_exclusive (m : RooAbsPdf) (fd : Option RooArgSet)
    (a d : RooAbsArg) (hd : m.findServer a.name = some d)
    (hex : ∀ s ∈ m.serverList, s ≠ d → m.dependsOn s a = false) :
    directAfterCheck m fd a = some d := by
  have hany : otherServerDepends m a d m.serverList = false := by
    unfold otherServerDepends
    rw [List.any_eq_false]
    intro s hs
    by_cases hsd : s = d
    · simp [hsd]
    · simp [hsd, hex s hs hsd]
  unfold directAfterCheck
  rw [hd]
  simp only [exclusiveLoop_some, hany]
  cases hce : checksExclusivity fd d <;> simp

theorem scanStep_direct (m : RooAbsPdf) (fd : Option RooArgSet) (tmp arg d : RooAbsArg)
    (st : ScanState) (h : tmp.isDerived = false)
    (hf : RooArgSet.find m.cloneSet tmp.name = some arg)
    (hc : directAfterCheck m fd arg = some d) :
    scanStep m fd tmp st =
      ({ st with directVars := RooArgSet.add st.directVars arg } : ScanState) := by
  simp [scanStep, h, hf, hc]

theorem RooArgSet.add_two (a b : RooAbsArg) (h : a.name ≠ b.name) :
    RooArgSet.add (RooArgSet.add [] a) b = [a, b] := by
  simp [RooArgSet.add, RooArgSet.contains, RooArgSet.find, h]

/-! ## The per-event driver -/

theorem RooArgSet.length_le_add (s : RooArgSet) (a : RooAbsArg) :
    List.length s ≤ List.length (RooArgSet.add s a) := by
  unfold RooArgSet.add
  split
  · exact Nat.le_refl _
  · simp

theorem RooArgSet.length_le_addAll (s l : RooArgSet) :
    List.length s ≤ List.length (RooArgSet.addAll s l) := by
  induction l generalizing s with
  | nil => exact Nat.le_refl _
  | cons a l ih =>
    have : RooArgSet.addAll s (a :: l) = RooArgSet.addAll (RooArgSet.add s a) l := rfl
    rw [this]
    exact Nat.le_trans (RooArgSet.length_le_add s a) (ih _)

/-- A union is empty exactly when both sets are. -/
theorem RooArgSet.addAll_eq_nil_iff (s l : RooArgSet) :
    RooArgSet.addAll s l = [] ↔ s = [] ∧ l = [] := by
  constructor
  · intro h
    have hs : s = [] := by
      have h1 := RooArgSet.length_le_addAll s l
      rw [h] at h1
      exact List.length_eq_zero.1 (Nat.le_zero.1 h1)
    subst hs
    refine ⟨rfl, ?_⟩
    cases l with
    | nil => rfl
    | cons a l =>
      have h2 : RooArgSet.addAll [] (a :: l) = RooArgSet.addAll [a] l := rfl
      have h1 := RooArgSet.length_le_addAll [a] l
      rw [← h2, h] at h1
      exact absurd h1 (by simp)
  · rintro ⟨rfl, rfl⟩
    rfl

theorem RooArgSet.eq_nil_of_contains_false (s : RooArgSet)
    (h : ∀ n, RooArgSet.contains s n = false) : s = [] := by
  cases s with
  | nil => rfl
  | cons a s =>
    have h1 := h a.name
    rw [RooArgSet.contains_cons] at h1
    simp at h1

theorem RooArgSet.ne_nil_of_contains {s : RooArgSet} {n : String}
    (h : RooArgSet.contains s n = true) : s ≠ [] := by
  intro e
  rw [e] at h
  exact Bool.noConfusion h

theorem RooArgSet.getSize_pos_iff (s : RooArgSet) : RooArgSet.getSize s > 0 ↔ s ≠ [] := by
  unfold RooArgSet.getSize
  exact List.length_pos

/-- A field of the buffer after `theEvent= *subEvent`. -/
theorem RooArgSet.find_assign (s other : RooArgSet) (n : String) :
    RooArgSet.find (RooArgSet.assign s other) n =
      Option.map (fun e =>
        match RooArgSet.find other e.name with
        | some t => { e with value := t.value }
        | none => e) (RooArgSet.find s n) := by
  induction s with
  | nil => rfl
  | cons a s ih =>
    have hcons : RooArgSet.assign (a :: s) other =
        (match RooArgSet.find other a.name with
          | some t => { a with value := t.value }
          | none => a) :: RooArgSet.assign s other := rfl
    have hname : (match RooArgSet.find other a.name with
          | some t => ({ a with value := t.value } : RooAbsArg)
          | none => a).name = a.name := by
      cases RooArgSet.find other a.name <;> rfl
    rw [hcons, RooArgSet.find_cons, RooArgSet.find_cons, hname]
    by_cases h : a.name = n
    · simp [h]
    · simp [h, ih]

/-- The sampled value of a field the buffer and the sample share. -/
theorem RooArgSet.find_assign_of_find (s other : RooArgSet) (n : String) (e t : RooAbsArg)
    (he : RooArgSet.find s n = some e) (ht : RooArgSet.find other n = some t) :
    RooArgSet.find (RooArgSet.assign s other) n = some { e with value := t.value } := by
  rw [RooArgSet.find_assign, he]
  have := RooArgSet.find_name he
  simp [this, ht]

theorem generationPlan_some (m : RooAbsPdf) (fd : Option RooArgSet) (vars : RooArgSet)
    (p : GenerationPlan) (hp : generationPlan m fd vars = some p) :
    (∀ u ∈ vars, u.isDerived = false) ∧ p = finalizeDirect m (scanVars m fd vars) := by
  unfold generationPlan at hp
  cases h : (scanVars m fd vars).isValid with
  | false => simp [h] at hp
  | true =>
    simp [h] at hp
    exact ⟨(scanVars_isValid_iff m fd vars).1 h, hp.symm⟩

/-- The members `generateEvent` reads, in a context with the plan `p`. -/
theorem construct_of_plan (m : RooAbsPdf) (vars theEvent : RooArgSet) (verbose : Bool)
    (fd : Option RooArgSet) (p : GenerationPlan) (hp : generationPlan m fd vars = some p) :
    (RooGenContext.construct m vars theEvent verbose fd)._directVars = p.directVars ∧
    (RooGenContext.construct m vars theEvent verbose fd)._otherVars =
      RooArgSet.addAll p.residualVars p.uniformVars ∧
    (RooGenContext.construct m vars theEvent verbose fd)._code = some p.generatorCode ∧
    ∃ g, (RooGenContext.construct m vars theEvent verbose fd)._generator = some g := by
  obtain ⟨hall, rfl⟩ := generationPlan_some m fd vars p hp
  obtain ⟨_, _, cd, co, cc, cg⟩ := construct_valid m vars theEvent verbose fd hall
  exact ⟨cd, co, cc, cg⟩

/-! ## The reduced density and the sampler -/

theorem classOf_uniform_iff (m : RooAbsPdf) (fd : Option RooArgSet) (n : String) :
    classOf m fd n = VarClass.uniform ↔ RooArgSet.contains m.cloneSet n = false := by
  unfold classOf RooArgSet.contains
  cases hf : RooArgSet.find m.cloneSet n with
  | none => simp
  | some a => cases hd : directAfterCheck m fd a <;> simp [hd]

/-- The integral and the sampler a valid construction builds, lines 124-134. -/
theorem construct_sampler (m : RooAbsPdf) (vars theEvent : RooArgSet) (verbose : Bool)
    (fd : Option RooArgSet) (p : GenerationPlan) (hp : generationPlan m fd vars = some p) :
    (RooGenContext.construct m vars theEvent verbose fd)._acceptRejectFunc =
      some { name := m.name ++ "Reduced", title := m.title ++ " (Accept/Reject)",
             intVars := RooArgSet.remove (m.getDependents theEvent) p.residualVars,
             normSet := vars } ∧
    (RooGenContext.construct m vars theEvent verbose fd)._generator =
      some { func := { name := m.name ++ "Reduced", title := m.title ++ " (Accept/Reject)",
                       intVars := RooArgSet.remove (m.getDependents theEvent) p.residualVars,
                       normSet := vars },
             genVars := RooArgSet.addAll p.residualVars p.uniformVars,
             verbose := verbose } := by
  obtain ⟨hall, rfl⟩ := generationPlan_some m fd vars p hp
  have h := (scanVars_isValid_iff m fd vars).2 hall
  simp [RooGenContext.construct, h]

/-- The sets of the plan of a valid construction, by name. -/
theorem plan_sets (m : RooAbsPdf) (fd : Option RooArgSet) (vars : RooArgSet)
    (p : GenerationPlan) (hp : generationPlan m fd vars = some p) (n : String) :
    RooArgSet.contains p.uniformVars n =
      (RooArgSet.contains vars n && decide (classOf m fd n = VarClass.uniform)) ∧
    RooArgSet.contains p.directVars n = RooArgSet.contains (generatedVars m fd vars) n ∧
    RooArgSet.contains p.residualVars n =
      ((RooArgSet.contains vars n && decide (classOf m fd n = VarClass.other)) ||
        ((RooArgSet.contains vars n && decide (classOf m fd n = VarClass.direct)) &&
          !(RooArgSet.contains (generatedVars m fd vars) n))) ∧
    RooArgSet.contains (tentativeDirect m fd vars) n =
      (RooArgSet.contains vars n && decide (classOf m fd n = VarClass.direct)) := by
  obtain ⟨hall, rfl⟩ := generationPlan_some m fd vars p hp
  obtain ⟨su, sd, so⟩ := scanVars_sets m fd vars hall n
  obtain ⟨fu, fdir, fr⟩ := finalizeDirect_sets m (scanVars m fd vars) n
  refine ⟨by rw [fu, su], ?_, ?_, sd⟩
  · unfold RooArgSet.contains; rw [fdir]; rfl
  · rw [fr, so, sd]; rfl

theorem RooArgSet.remove_eq_self (s l : RooArgSet)
    (h : ∀ a ∈ s, RooArgSet.contains l a.name = false) : RooArgSet.remove s l = s := by
  unfold RooArgSet.remove
  rw [List.filter_eq_self]
  intro a ha
  rw [h a ha]
  rfl

theorem RooArgSet.mem_remove {s l : RooArgSet} {a : RooAbsArg}
    (h : a ∈ RooArgSet.remove s l) : a ∈ s ∧ RooArgSet.contains l a.name = false := by
  unfold RooArgSet.remove at h
  rw [List.mem_filter] at h
  exact ⟨h.1, by simpa using h.2⟩

/-! ## What the constructor reports -/

theorem derivedErrors_append (a b : List Msg) :
    derivedErrors (a ++ b) = derivedErrors a ++ derivedErrors b := by
  induction a with
  | nil => rfl
  | cons x l ih => cases x <;> simp [derivedErrors, ih]

/-- A scan without a derived variable reports no derived variable. -/
theorem scanLoop_derivedErrors (m : RooAbsPdf) (fd : Option RooArgSet) (vars : RooArgSet)
    (hall : ∀ u ∈ vars, u.isDerived = false) (st : ScanState) (hst : st.isValid = true) :
    derivedErrors (scanLoop m fd vars st).log = derivedErrors st.log := by
  induction vars generalizing st with
  | nil => rfl
  | cons a l ih =>
    have ha : a.isDerived = false := hall a (List.mem_cons_self a l)
    have hl : ∀ u ∈ l, u.isDerived = false := fun u hu => hall u (List.mem_cons_of_mem a hu)
    have hv : (scanStep m fd a st).isValid = true := by
      rw [(scanStep_sets m fd a st ha "").1, hst]
    rw [scanLoop_cons_valid m fd a l st hst, ih hl _ hv]
    rcases scanStep_cases m fd a st with ⟨hd, _⟩ | ⟨_, _, he⟩ | ⟨_, _, _, _, _, he⟩ |
        ⟨_, _, _, _, _, he⟩
    · rw [ha] at hd; exact Bool.noConfusion hd
    · rw [he]
      show derivedErrors (st.log ++ [Msg.uniformWarning a.name]) = _
      rw [derivedErrors_append]
      simp [derivedErrors]
    · rw [he]
    · rw [he]

/-- The scan of a request whose first derived variable is `d`: it is the scan of
the variables before `d`, marked invalid, with the report of `d`. -/
theorem scanVars_stops (m : RooAbsPdf) (fd : Option RooArgSet) (before after : RooArgSet)
    (d : RooAbsArg) (hbefore : ∀ u ∈ before, u.isDerived = false)
    (hd : d.isDerived = true) :
    scanVars m fd (before ++ d :: after) =
      ({ scanVars m fd before with
          isValid := false,
          log := (scanVars m fd before).log ++ [Msg.cannotGenerateDerived d.name] } :
        ScanState) := by
  obtain ⟨hval, _⟩ := scanLoop_sets m fd before hbefore
    { isValid := true, uniformVars := [], directVars := [], otherVars := [], log := [] } rfl ""
  unfold scanVars
  rw [scanLoop_append, scanLoop_cons_valid m fd d after _ hval, scanStep_derived m fd d _ hd]
  apply scanLoop_invalid
  rfl

/-! ## The class of a server -/

theorem RooArgSet.contains_iff_exists_mem (s : RooArgSet) (n : String) :
    RooArgSet.contains s n = true ↔ ∃ a ∈ s, a.name = n := by
  induction s with
  | nil => simp [RooArgSet.contains_nil]
  | cons b s ih =>
    rw [RooArgSet.contains_cons, Bool.or_eq_true, ih]
    simp

theorem RooArgSet.contains_perm {s t : RooArgSet} (h : List.Perm s t) (n : String) :
    RooArgSet.contains s n = RooArgSet.contains t n := by
  have e : RooArgSet.contains s n = true ↔ RooArgSet.contains t n = true := by
    rw [RooArgSet.contains_iff_exists_mem, RooArgSet.contains_iff_exists_mem]
    constructor
    · rintro ⟨a, ha, hn⟩; exact ⟨a, (List.Perm.mem_iff h).1 ha, hn⟩
    · rintro ⟨a, ha, hn⟩; exact ⟨a, (List.Perm.mem_iff h).2 ha, hn⟩
  cases hs : RooArgSet.contains s n <;> cases ht : RooArgSet.contains t n <;> simp_all

theorem otherServerDepends_iff (m : RooAbsPdf) (a d : RooAbsArg) (l : List RooAbsArg) :
    otherServerDepends m a d l = true ↔ ∃ s ∈ l, s ≠ d ∧ m.dependsOn s a = true := by
  unfold otherServerDepends
  rw [List.any_eq_true]
  constructor
  · rintro ⟨s, hs, h⟩
    simp only [Bool.and_eq_true, Bool.not_eq_true', decide_eq_false_iff_not] at h
    exact ⟨s, hs, h.1, h.2⟩
  · rintro ⟨s, hs, h1, h2⟩
    exact ⟨s, hs, by simp [h1, h2]⟩

/-- A node of the snapshot that is not a server of the model is never
tentatively direct, whatever the force-direct set. -/
theorem classOf_of_not_server (m : RooAbsPdf) (fd : Option RooArgSet) (n : String)
    (a : RooAbsArg) (hnode : RooArgSet.find m.cloneSet n = some a)
    (hns : m.findServer n = none) : classOf m fd n = VarClass.other := by
  have hname := RooArgSet.find_name hnode
  unfold classOf
  rw [hnode]
  have : directAfterCheck m fd a = none := by
    unfold directAfterCheck
    rw [hname, hns]
  simp [this]

/-- A server named in the force-direct set is tentatively direct. -/
theorem classOf_forced (m : RooAbsPdf) (fdset : RooArgSet) (n : String)
    (a d : RooAbsArg) (hnode : RooArgSet.find m.cloneSet n = some a)
    (hserver : m.findServer n = some d)
    (hforce : RooArgSet.contains fdset n = true) :
    classOf m (some fdset) n = VarClass.direct := by
  have hname := RooArgSet.find_name hnode
  have hd := (findServer_name hserver).1
  unfold classOf
  rw [hnode]
  have : directAfterCheck m (some fdset) a = some d := by
    unfold directAfterCheck
    rw [hname, hserver]
    simp [checksExclusivity, hd, hforce]
  simp [this]

/-- A server the exclusivity check applies to is tentatively direct exactly when
no other server depends on it. -/
theorem classOf_checked (m : RooAbsPdf) (fd : Option RooArgSet) (n : String)
    (a d : RooAbsArg) (hnode : RooArgSet.find m.cloneSet n = some a)
    (hserver : m.findServer n = some d)
    (hck : checksExclusivity fd d = true) :
    classOf m fd n = VarClass.direct ↔ otherServerDepends m a d m.serverList = false := by
  have hname := RooArgSet.find_name hnode
  unfold classOf
  rw [hnode]
  have hdac : directAfterCheck m fd a =
      if otherServerDepends m a d m.serverList = true then none else some d := by
    unfold directAfterCheck
    rw [hname, hserver]
    simp [hck, exclusiveLoop_some]
  show (match directAfterCheck m fd a with
      | some _ => VarClass.direct
      | none => VarClass.other) = VarClass.direct ↔ _
  rw [hdac]
  cases otherServerDepends m a d m.serverList <;> simp

/-- The dependents of the example model `f(x, g(x,y), w)` are nodes of its
snapshot, whatever its generator and the event. -/
theorem mixedModelWith_dependents_in_snapshot (gen : RooArgSet → Int × RooArgSet)
    (e : RooArgSet) : DependentsInSnapshot (mixedModelWith gen) e := by
  intro n h
  rw [RooArgSet.contains_iff_exists_mem] at h
  obtain ⟨a, ha, hn⟩ := h
  have hp : (a.name == "x" || a.name == "y" || a.name == "w") = true :=
    (List.mem_filter.1 ha).2
  simp only [Bool.or_eq_true, beq_iff_eq] at hp
  rw [hn] at hp
  rcases hp with (h | h) | h <;> subst h <;> rfl

/-- A node of the snapshot other than the model is in its dependency set. -/
theorem RooArgSet.contains_dependencySet (m : RooAbsPdf) (n : String)
    (h : RooArgSet.contains m.cloneSet n = true) (hne : n ≠ m.name) :
    RooArgSet.contains m.dependencySet n = true := by
  rw [RooArgSet.contains_iff_exists_mem] at h ⊢
  obtain ⟨a, ha, hn⟩ := h
  refine ⟨a, ?_, hn⟩
  unfold RooAbsPdf.dependencySet
  rw [List.mem_filter]
  refine ⟨ha, ?_⟩
  rw [hn]
  simpa using hne

/-! ## The generation plan -/

/-- C1: when no requested variable is derived, the model's generator reporting,
as its contract says, only variables of the tentative-direct set it was asked
about, construction yields a plan whose sets `uniformVars`, `directVars` and
`residualVars` are pairwise disjoint and together hold exactly the requested
names, `residualVars` being `_otherVars` as it stands after line 121. The
members `_uniformVars` and `_directVars` of the context are those sets, and
`_otherVars` is `residualVars` with `uniformVars` merged in. -/
theorem plan_partitions_requested (m : RooAbsPdf) (fd : Option RooArgSet)
    (vars theEvent : RooArgSet) (verbose : Bool)
    (hvalid : ∀ v ∈ vars, v.isDerived = false)
    (hgen : GeneratorReportsSubset m fd vars) :
    ∃ p, generationPlan m fd vars = some p ∧ PlanPartitions p vars ∧
      (RooGenContext.construct m vars theEvent verbose fd)._uniformVars = p.uniformVars ∧
      (RooGenContext.construct m vars theEvent verbose fd)._directVars = p.directVars ∧
      (RooGenContext.construct m vars theEvent verbose fd)._otherVars =
        RooArgSet.addAll p.residualVars p.uniformVars := by
  obtain ⟨_, cu, cd, co, _, _⟩ := construct_valid m vars theEvent verbose fd hvalid
  refine ⟨_, generationPlan_valid m fd vars hvalid, ?_, cu, cd, co⟩
  have key : ∀ n,
      RooArgSet.contains (finalizeDirect m (scanVars m fd vars)).uniformVars n =
        (RooArgSet.contains vars n && decide (classOf m fd n = VarClass.uniform)) ∧
      RooArgSet.contains (finalizeDirect m (scanVars m fd vars)).directVars n =
        RooArgSet.contains (generatedVars m fd vars) n ∧
      RooArgSet.contains (finalizeDirect m (scanVars m fd vars)).residualVars n =
        ((RooArgSet.contains vars n && decide (classOf m fd n = VarClass.other)) ||
          ((RooArgSet.contains vars n && decide (classOf m fd n = VarClass.direct)) &&
            !(RooArgSet.contains (generatedVars m fd vars) n))) := by
    intro n
    obtain ⟨su, sd, so⟩ := scanVars_sets m fd vars hvalid n
    obtain ⟨fu, fdir, fr⟩ := finalizeDirect_sets m (scanVars m fd vars) n
    refine ⟨by rw [fu, su], ?_, ?_⟩
    · unfold RooArgSet.contains; rw [fdir]; rfl
    · rw [fr, so, sd]; rfl
  have hsub : ∀ n, RooArgSet.contains (generatedVars m fd vars) n = true →
      RooArgSet.contains vars n = true ∧ classOf m fd n = VarClass.direct := by
    intro n hn
    have h1 := hgen n hn
    unfold tentativeDirect at h1
    rw [(scanVars_sets m fd vars hvalid n).2.1] at h1
    simpa using h1
  refine ⟨?_, ?_, ?_, ?_⟩
  · intro n ⟨h1, h2⟩
    rw [(key n).1] at h1
    rw [(key n).2.1] at h2
    have h3 := (hsub n h2).2
    rw [h3] at h1
    simp at h1
  · intro n ⟨h1, h2⟩
    rw [(key n).1] at h1
    rw [(key n).2.2] at h2
    cases hc : classOf m fd n <;> simp [hc] at h1 h2
  · intro n ⟨h1, h2⟩
    rw [(key n).2.1] at h1
    rw [(key n).2.2] at h2
    have h3 := (hsub n h1).2
    simp [h3, h1] at h2
  · intro n
    rw [(key n).1, (key n).2.1, (key n).2.2]
    constructor
    · rintro (h | h | h)
      · simp at h; exact h.1
      · exact (hsub n h).1
      · simp at h
        rcases h with h | h
        · exact h.1
        · exact h.1.1
    · intro hv
      cases hc : classOf m fd n with
      | uniform => left; simp [hv]
      | direct =>
        cases hg : RooArgSet.contains (generatedVars m fd vars) n with
        | true => right; left; rfl
        | false => right; right; simp [hv]
      | other => right; right; simp [hv]

/-- The generator of `mixedModel` keeps to what it is asked about. -/
theorem mixedModel_reports_subset :
    GeneratorReportsSubset mixedModel none [varX, varY, varW, varZ] := by
  have e1 : generatedVars mixedModel none [varX, varY, varW, varZ] = [cloneW] := by decide
  have e2 : tentativeDirect mixedModel none [varX, varY, varW, varZ] = [cloneW] := by decide
  unfold GeneratorReportsSubset
  rw [e1, e2]
  exact fun _ h => h

/-- C1 at `mixedModel` with the request `x, y, w, z`. -/
theorem plan_partitions_requested_witness :
    (∀ v ∈ [varX, varY, varW, varZ], v.isDerived = false) ∧
    GeneratorReportsSubset mixedModel none [varX, varY, varW, varZ] ∧
    ∃ p, generationPlan mixedModel none [varX, varY, varW, varZ] = some p ∧
      PlanPartitions p [varX, varY, varW, varZ] ∧
      (RooGenContext.construct mixedModel [varX, varY, varW, varZ] bufferXYW false none)._uniformVars
        = p.uniformVars ∧
      (RooGenContext.construct mixedModel [varX, varY, varW, varZ] bufferXYW false none)._directVars
        = p.directVars ∧
      (RooGenContext.construct mixedModel [varX, varY, varW, varZ] bufferXYW false none)._otherVars
        = RooArgSet.addAll p.residualVars p.uniformVars :=
  ⟨by decide, mixedModel_reports_subset,
    plan_partitions_requested mixedModel none [varX, varY, varW, varZ] bufferXYW false
      (by decide) mixedModel_reports_subset⟩

/-- C2: in a valid context, let the requested variable `v` have the node `a` in
the snapshot and not be named in the force-direct set. If a server `s` of the
model that is not the server `v` itself depends on `a`, then, the generator
reporting a subset of the set it was asked about, `v` is not in the finalized
`_directVars` and is in `residualVars`. -/
theorem exclusivity_failure_is_residual (m : RooAbsPdf) (fd : Option RooArgSet)
    (vars theEvent : RooArgSet) (verbose : Bool) (v a s : RooAbsArg)
    (hvalid : ∀ u ∈ vars, u.isDerived = false)
    (hv : v ∈ vars)
    (hnode : RooArgSet.find m.cloneSet v.name = some a)
    (hforce : ∀ fdset, fd = some fdset → RooArgSet.contains fdset v.name = false)
    (hs : s ∈ m.serverList)
    (hself : m.findServer v.name ≠ some s)
    (hdep : m.dependsOn s a = true)
    (hgen : GeneratorReportsSubset m fd vars) :
    RooArgSet.contains (RooGenContext.construct m vars theEvent verbose fd)._directVars v.name
      = false ∧
    ∃ p, generationPlan m fd vars = some p ∧
      RooArgSet.contains p.residualVars v.name = true := by
  have hc := classOf_other_of_depends m fd v.name a s hnode hforce hs hself hdep
  obtain ⟨_, sd, so⟩ := scanVars_sets m fd vars hvalid v.name
  obtain ⟨_, fdir, fr⟩ := finalizeDirect_sets m (scanVars m fd vars) v.name
  obtain ⟨_, _, cd, _, _, _⟩ := construct_valid m vars theEvent verbose fd hvalid
  have hT : RooArgSet.contains (tentativeDirect m fd vars) v.name = false := by
    unfold tentativeDirect
    rw [sd, hc]; simp
  have hG : RooArgSet.contains (generatedVars m fd vars) v.name = false := by
    cases hg : RooArgSet.contains (generatedVars m fd vars) v.name with
    | false => rfl
    | true => rw [hgen v.name hg] at hT; exact Bool.noConfusion hT
  refine ⟨?_, _, generationPlan_valid m fd vars hvalid, ?_⟩
  · rw [cd]
    unfold RooArgSet.contains
    rw [fdir]
    exact hG
  · rw [fr, so, hc, RooArgSet.contains_of_mem hv]
    rfl

/-- C2 at `mixedModel`: `x` is a server of `f`, and the server `g` depends on it. -/
theorem exclusivity_failure_is_residual_witness :
    RooArgSet.contains
      (RooGenContext.construct mixedModel [varX, varY, varW, varZ] bufferXYW false none)._directVars
      varX.name = false ∧
    ∃ p, generationPlan mixedModel none [varX, varY, varW, varZ] = some p ∧
      RooArgSet.contains p.residualVars varX.name = true :=
  exclusivity_failure_is_residual mixedModel none [varX, varY, varW, varZ] bufferXYW false
    varX cloneX nodeG (by decide) (by decide) (by decide) (fun _ h => Option.noConfusion h)
    (by decide) (by decide) (by decide) mixedModel_reports_subset

/-- C3, refuted as stated: `z` has no node in the snapshot of the model, and
(1) requested after the derived `d` it is never scanned, because the loop of
line 58 stops once `_isValid` is false, so it is not in `_uniformVars`;
(2) requested alone from a model whose generator reports `z`, it is in
`_uniformVars` and in `_directVars`. -/
theorem absent_variable_not_always_uniform :
    RooArgSet.find mixedModel.cloneSet varZ.name = none ∧
    RooArgSet.contains
      (RooGenContext.construct mixedModel [varD, varZ] bufferXYW false none)._uniformVars
      varZ.name = false ∧
    RooArgSet.find strayModel.cloneSet varZ.name = none ∧
    (RooGenContext.construct strayModel [varZ] bufferXYW false none)._isValid = true ∧
    RooArgSet.contains
      (RooGenContext.construct strayModel [varZ] bufferXYW false none)._directVars
      varZ.name = true := by
  decide

/-- C3, amended: a requested variable `v` without a same-named node in the
snapshot is in `_uniformVars` when neither `v` nor a variable requested before
it is derived, whatever is requested after it; and it is not in `_directVars`
when the generator reports only variables of the set it was asked about. -/
theorem absent_variable_is_uniform (m : RooAbsPdf) (fd : Option RooArgSet)
    (before after theEvent : RooArgSet) (verbose : Bool) (v : RooAbsArg)
    (hbefore : ∀ u ∈ before, u.isDerived = false)
    (hv : v.isDerived = false)
    (habsent : RooArgSet.find m.cloneSet v.name = none)
    (hgen : GeneratorReportsSubset m fd (before ++ v :: after)) :
    RooArgSet.contains
      (RooGenContext.construct m (before ++ v :: after) theEvent verbose fd)._uniformVars
      v.name = true ∧
    RooArgSet.contains
      (RooGenContext.construct m (before ++ v :: after) theEvent verbose fd)._directVars
      v.name = false := by
  have hcl : classOf m fd v.name = VarClass.uniform := by
    unfold classOf; rw [habsent]
  -- the scan reaches `v` in a valid state and puts it into `_uniformVars`
  have hscanU : RooArgSet.contains (scanVars m fd (before ++ v :: after)).uniformVars v.name
      = true := by
    unfold scanVars
    rw [scanLoop_append]
    obtain ⟨hval, _, _, _⟩ := scanLoop_sets m fd before hbefore
      { isValid := true, uniformVars := [], directVars := [], otherVars := [], log := [] }
      rfl v.name
    rw [scanLoop_cons_valid m fd v after _ hval]
    apply (scanLoop_bounds m fd after _ v.name).1
    rw [(scanStep_sets m fd v _ hv v.name).2.1, hcl]
    simp
  -- nothing named `v` is tentatively direct
  have hscanD : RooArgSet.contains (scanVars m fd (before ++ v :: after)).directVars v.name
      = false := by
    cases hd : RooArgSet.contains (scanVars m fd (before ++ v :: after)).directVars v.name with
    | false => rfl
    | true =>
      rcases (scanLoop_bounds m fd (before ++ v :: after) _ v.name).2.2.1 hd with h | h
      · exact Bool.noConfusion h
      · rw [hcl] at h; exact VarClass.noConfusion h
  cases hvalid : (scanVars m fd (before ++ v :: after)).isValid with
  | false =>
    obtain ⟨_, cu, cd, _, _, _⟩ :=
      construct_invalid m (before ++ v :: after) theEvent verbose fd hvalid
    rw [cu, cd]
    exact ⟨hscanU, hscanD⟩
  | true =>
    have hall := (scanVars_isValid_iff m fd (before ++ v :: after)).1 hvalid
    obtain ⟨_, cu, cd, _, _, _⟩ :=
      construct_valid m (before ++ v :: after) theEvent verbose fd hall
    obtain ⟨fu, fdir, _⟩ :=
      finalizeDirect_sets m (scanVars m fd (before ++ v :: after)) v.name
    rw [cu, cd, fu]
    refine ⟨hscanU, ?_⟩
    cases hg : RooArgSet.contains
        (finalizeDirect m (scanVars m fd (before ++ v :: after))).directVars v.name with
    | false => rfl
    | true =>
      have hg2 : RooArgSet.contains (generatedVars m fd (before ++ v :: after)) v.name = true := by
        unfold RooArgSet.contains at hg ⊢
        rw [fdir] at hg
        exact hg
      have h3 := hgen v.name hg2
      unfold tentativeDirect at h3
      rw [h3] at hscanD
      exact Bool.noConfusion hscanD

/-- The generator of `mixedModel` keeps to what it is asked about, also when the
scan stops at a derived variable. -/
theorem mixedModel_reports_subset_stopped :
    GeneratorReportsSubset mixedModel none ([varX] ++ varZ :: [varD, varW]) := by
  have e1 : generatedVars mixedModel none ([varX] ++ varZ :: [varD, varW]) = [] := by decide
  unfold GeneratorReportsSubset
  rw [e1]
  intro n h
  exact Bool.noConfusion h

/-- C3, amended, at `mixedModel` with `z` requested after `x` and before the
derived `d`. -/
theorem absent_variable_is_uniform_witness :
    RooArgSet.contains
      (RooGenContext.construct mixedModel ([varX] ++ varZ :: [varD, varW]) bufferXYW false
        none)._uniformVars varZ.name = true ∧
    RooArgSet.contains
      (RooGenContext.construct mixedModel ([varX] ++ varZ :: [varD, varW]) bufferXYW false
        none)._directVars varZ.name = false :=
  absent_variable_is_uniform mixedModel none [varX] [varD, varW] bufferXYW false varZ
    (by decide) (by decide) (by decide) mixedModel_reports_subset_stopped

/-- C4: in a valid context the finalized `_directVars` is the set the model
reported, name for name and element for element, and every variable of the
tentative-direct set the model did not report is in `residualVars`. -/
theorem direct_set_is_generated_set (m : RooAbsPdf) (fd : Option RooArgSet)
    (vars theEvent : RooArgSet) (verbose : Bool)
    (hvalid : ∀ u ∈ vars, u.isDerived = false) :
    (∀ n, RooArgSet.find (RooGenContext.construct m vars theEvent verbose fd)._directVars n =
        RooArgSet.find (generatedVars m fd vars) n) ∧
    ∃ p, generationPlan m fd vars = some p ∧
      (RooGenContext.construct m vars theEvent verbose fd)._directVars = p.directVars ∧
      (RooGenContext.construct m vars theEvent verbose fd)._code = some p.generatorCode ∧
      p.generatorCode = (m.getGenerator (tentativeDirect m fd vars)).1 ∧
      ∀ n, RooArgSet.contains (tentativeDirect m fd vars) n = true →
        RooArgSet.contains (generatedVars m fd vars) n = false →
        RooArgSet.contains p.residualVars n = true := by
  obtain ⟨_, _, cd, _, cc, _⟩ := construct_valid m vars theEvent verbose fd hvalid
  refine ⟨?_, _, generationPlan_valid m fd vars hvalid, cd, cc, rfl, ?_⟩
  · intro n
    rw [cd, (finalizeDirect_sets m (scanVars m fd vars) n).2.1]
    rfl
  · intro n hT hG
    rw [(finalizeDirect_sets m (scanVars m fd vars) n).2.2]
    unfold tentativeDirect at hT
    unfold generatedVars tentativeDirect at hG
    rw [hT, hG]
    simp

/-- C4 at `shyModel`, which is asked about `w` and reports nothing. -/
theorem direct_set_is_generated_set_witness :
    (∀ n, RooArgSet.find
        (RooGenContext.construct shyModel [varX, varW] bufferXYW false none)._directVars n =
        RooArgSet.find (generatedVars shyModel none [varX, varW]) n) ∧
    ∃ p, generationPlan shyModel none [varX, varW] = some p ∧
      (RooGenContext.construct shyModel [varX, varW] bufferXYW false none)._directVars
        = p.directVars ∧
      (RooGenContext.construct shyModel [varX, varW] bufferXYW false none)._code
        = some p.generatorCode ∧
      p.generatorCode = (shyModel.getGenerator (tentativeDirect shyModel none [varX, varW])).1 ∧
      ∀ n, RooArgSet.contains (tentativeDirect shyModel none [varX, varW]) n = true →
        RooArgSet.contains (generatedVars shyModel none [varX, varW]) n = false →
        RooArgSet.contains p.residualVars n = true :=
  direct_set_is_generated_set shyModel none [varX, varW] bufferXYW false (by decide)

/-- C5: the context is valid after construction exactly when no requested
variable is derived. -/
theorem isValid_iff_no_derived (m : RooAbsPdf) (vars theEvent : RooArgSet) (verbose : Bool)
    (fd : Option RooArgSet) :
    (RooGenContext.construct m vars theEvent verbose fd).isValid = true ↔
      ∀ v ∈ vars, v.isDerived = false := by
  rw [← scanVars_isValid_iff m fd vars]
  unfold RooGenContext.isValid RooGenContext.construct
  cases h : (scanVars m fd vars).isValid <;> simp [h]

/-! ## Generating an event -/

/-- C6, refuted as stated: `generateEvent` does not look at `_isValid`. After
the request `w, d` with `d` derived, `_directVars` holds `w` and the call
passes the never-assigned `_code` to the model; after `y, d`, `_otherVars`
holds `y` and the call goes through the null `_generator`. -/
theorem generate_on_invalid_context_faults :
    (RooGenContext.construct mixedModel [varW, varD] bufferXYW false none).isValid = false ∧
    RooGenContext.generateEvent mixedModel
      (RooGenContext.construct mixedModel [varW, varD] bufferXYW false none)
      fixedSampler bufferXYW 1 = Except.error Fault.unassignedCode ∧
    (RooGenContext.construct mixedModel [varY, varD] bufferXYW false none).isValid = false ∧
    RooGenContext.generateEvent mixedModel
      (RooGenContext.construct mixedModel [varY, varD] bufferXYW false none)
      fixedSampler bufferXYW 1 = Except.error Fault.nullGenerator :=
  ⟨rfl, rfl, rfl, rfl⟩

/-- C6, amended: let `d` be the first derived variable of the request. The
context is invalid, and `generateEvent`, which makes no validity check, does
nothing at all (no sampler call, no generator call, no message, the buffer
unchanged) when no variable requested before `d` has a node in the snapshot of
the model; when one has, the call uses the null `_generator` or the
never-assigned `_code`. -/
theorem generate_on_invalid_context (m : RooAbsPdf) (fd : Option RooArgSet)
    (before after theEvent0 : RooArgSet) (verbose : Bool) (d : RooAbsArg)
    (acceptReject : RooAcceptReject → Int → Option RooArgSet)
    (theEvent : RooArgSet) (remaining : Int)
    (hbefore : ∀ u ∈ before, u.isDerived = false)
    (hd : d.isDerived = true) :
    (RooGenContext.construct m (before ++ d :: after) theEvent0 verbose fd).isValid = false ∧
    ((∀ u ∈ before, RooArgSet.find m.cloneSet u.name = none) →
      RooGenContext.generateEvent m
        (RooGenContext.construct m (before ++ d :: after) theEvent0 verbose fd)
        acceptReject theEvent remaining = Except.ok { theEvent := theEvent, actions := [] }) ∧
    ((∃ u ∈ before, RooArgSet.find m.cloneSet u.name ≠ none) →
      ∃ f, RooGenContext.generateEvent m
        (RooGenContext.construct m (before ++ d :: after) theEvent0 verbose fd)
        acceptReject theEvent remaining = Except.error f) := by
  -- the state in which the scan stops
  obtain ⟨hval, _⟩ := scanLoop_sets m fd before hbefore
    { isValid := true, uniformVars := [], directVars := [], otherVars := [], log := [] } rfl ""
  have hscan : scanVars m fd (before ++ d :: after) =
      scanStep m fd d (scanVars m fd before) := by
    unfold scanVars
    rw [scanLoop_append, scanLoop_cons_valid m fd d after _ hval]
    apply scanLoop_invalid
    rw [scanStep_derived m fd d _ hd]
  have hinv : (scanVars m fd (before ++ d :: after)).isValid = false := by
    rw [hscan, scanStep_derived m fd d _ hd]
  have hdir : (scanVars m fd (before ++ d :: after)).directVars =
      (scanVars m fd before).directVars := by
    rw [hscan, scanStep_derived m fd d _ hd]
  have hoth : (scanVars m fd (before ++ d :: after)).otherVars =
      (scanVars m fd before).otherVars := by
    rw [hscan, scanStep_derived m fd d _ hd]
  obtain ⟨cv, _, cd, co, cc, cg⟩ :=
    construct_invalid m (before ++ d :: after) theEvent0 verbose fd hinv
  rw [hdir] at cd
  rw [hoth] at co
  refine ⟨cv, ?_, ?_⟩
  · intro habs
    have hcls : ∀ n, RooArgSet.contains before n = true →
        classOf m fd n = VarClass.uniform := by
      intro n hn
      unfold RooArgSet.contains at hn
      cases hf : RooArgSet.find before n with
      | none => rw [hf] at hn; exact Bool.noConfusion hn
      | some u =>
        have hmem : u ∈ before := List.mem_of_find?_eq_some hf
        have hnm := RooArgSet.find_name hf
        have := habs u hmem
        rw [hnm] at this
        unfold classOf
        rw [this]
    have hd0 : (scanVars m fd before).directVars = [] := by
      apply RooArgSet.eq_nil_of_contains_false
      intro n
      rw [(scanVars_sets m fd before hbefore n).2.1]
      cases hb : RooArgSet.contains before n with
      | false => rfl
      | true => rw [hcls n hb]; rfl
    have ho0 : (scanVars m fd before).otherVars = [] := by
      apply RooArgSet.eq_nil_of_contains_false
      intro n
      rw [(scanVars_sets m fd before hbefore n).2.2]
      cases hb : RooArgSet.contains before n with
      | false => rfl
      | true => rw [hcls n hb]; rfl
    rw [hd0] at cd
    rw [ho0] at co
    simp [RooGenContext.generateEvent, directPart, cd, co, RooArgSet.getSize]
  · rintro ⟨u, hu, hne⟩
    have hcu : RooArgSet.contains before u.name = true := RooArgSet.contains_of_mem hu
    obtain ⟨_, sd, so⟩ := scanVars_sets m fd before hbefore u.name
    by_cases hO : (scanVars m fd before).otherVars = []
    · have hD : (scanVars m fd before).directVars ≠ [] := by
        apply RooArgSet.ne_nil_of_contains (n := u.name)
        rw [sd, hcu]
        rw [hO, RooArgSet.contains_nil, hcu] at so
        cases hc : classOf m fd u.name with
        | uniform =>
          exfalso
          unfold classOf at hc
          cases hf : RooArgSet.find m.cloneSet u.name with
          | none => exact hne hf
          | some a =>
            rw [hf] at hc
            cases hdc : directAfterCheck m fd a <;> simp [hdc] at hc
        | direct => rfl
        | other => rw [hc] at so; simp at so
      have hDpos : RooArgSet.getSize (scanVars m fd before).directVars > 0 :=
        (RooArgSet.getSize_pos_iff _).2 hD
      have hO0 : ¬ (RooArgSet.getSize (scanVars m fd before).otherVars > 0) := by
        rw [hO]; exact Nat.lt_irrefl 0
      refine ⟨Fault.unassignedCode, ?_⟩
      unfold RooGenContext.generateEvent
      rw [co, if_neg hO0]
      unfold directPart
      rw [cd, if_pos hDpos, cc]
    · have hOpos : RooArgSet.getSize (scanVars m fd before).otherVars > 0 :=
        (RooArgSet.getSize_pos_iff _).2 hO
      refine ⟨Fault.nullGenerator, ?_⟩
      unfold RooGenContext.generateEvent
      rw [co, if_pos hOpos, cg]

/-- C6, amended, at `mixedModel` with the request `z, d, x`: only `z`, which the
model does not depend on, is scanned before the derived `d`. -/
theorem generate_on_invalid_context_witness :
    (RooGenContext.construct mixedModel ([varZ] ++ varD :: [varX]) bufferXYW false
      none).isValid = false ∧
    ((∀ u ∈ [varZ], RooArgSet.find mixedModel.cloneSet u.name = none) →
      RooGenContext.generateEvent mixedModel
        (RooGenContext.construct mixedModel ([varZ] ++ varD :: [varX]) bufferXYW false none)
        fixedSampler bufferXYW 1 = Except.ok { theEvent := bufferXYW, actions := [] }) ∧
    ((∃ u ∈ [varZ], RooArgSet.find mixedModel.cloneSet u.name ≠ none) →
      ∃ f, RooGenContext.generateEvent mixedModel
        (RooGenContext.construct mixedModel ([varZ] ++ varD :: [varX]) bufferXYW false none)
        fixedSampler bufferXYW 1 = Except.error f) :=
  generate_on_invalid_context mixedModel none [varZ] [varX] bufferXYW false varD
    fixedSampler bufferXYW 1 (by decide) (by decide)

/-- C7: in a valid context whose residual/uniform group and whose `directVars`
are both non-empty, a call in which the sampler returns `subEvent` first copies
the sample into the buffer and only then runs the model's generator: the
generator is called with the finalized code on the buffer `theEvent= *subEvent`
produced, in which every field the buffer shares with the sample holds the
sampled value. -/
theorem sample_written_before_direct_generation (m : RooAbsPdf) (fd : Option RooArgSet)
    (vars theEvent0 : RooArgSet) (verbose : Bool)
    (acceptReject : RooAcceptReject → Int → Option RooArgSet)
    (theEvent subEvent : RooArgSet) (remaining : Int) (p : GenerationPlan)
    (hp : generationPlan m fd vars = some p)
    (hother : p.residualVars ≠ [] ∨ p.uniformVars ≠ [])
    (hdirect : p.directVars ≠ [])
    (hsample : ∀ g, (RooGenContext.construct m vars theEvent0 verbose fd)._generator = some g →
      acceptReject g remaining = some subEvent) :
    RooGenContext.generateEvent m (RooGenContext.construct m vars theEvent0 verbose fd)
        acceptReject theEvent remaining =
      Except.ok
        { theEvent := m.generateEvent p.generatorCode (RooArgSet.assign theEvent subEvent),
          actions := [Action.acceptRejectCall remaining, Action.assignEvent subEvent,
            Action.pdfGenerateEvent p.generatorCode (RooArgSet.assign theEvent subEvent)] } ∧
    ∀ n e t, RooArgSet.find theEvent n = some e → RooArgSet.find subEvent n = some t →
      RooArgSet.find (RooArgSet.assign theEvent subEvent) n = some { e with value := t.value } := by
  obtain ⟨cd, co, cc, g, cg⟩ := construct_of_plan m vars theEvent0 verbose fd p hp
  have hO : RooArgSet.getSize (RooArgSet.addAll p.residualVars p.uniformVars) > 0 := by
    rw [RooArgSet.getSize_pos_iff]
    intro e
    rcases (RooArgSet.addAll_eq_nil_iff _ _).1 e with ⟨e1, e2⟩
    rcases hother with h | h
    · exact h e1
    · exact h e2
  have hD : RooArgSet.getSize p.directVars > 0 := (RooArgSet.getSize_pos_iff _).2 hdirect
  refine ⟨?_, fun n e t he ht => RooArgSet.find_assign_of_find theEvent subEvent n e t he ht⟩
  unfold RooGenContext.generateEvent
  rw [co, if_pos hO, cg]
  simp only [hsample g cg]
  unfold directPart
  rw [cd, if_pos hD, cc]
  rfl

/-- C7 at `mixedModel` with a sampler that returns `x = 5, y = 6`. -/
theorem sample_written_before_direct_generation_witness :
    RooGenContext.generateEvent mixedModel
        (RooGenContext.construct mixedModel [varX, varY, varW, varZ] bufferXYW false none)
        fixedSampler bufferXYW 1 =
      Except.ok
        { theEvent := mixedModel.generateEvent mixedPlan.generatorCode
            (RooArgSet.assign bufferXYW sampleXY),
          actions := [Action.acceptRejectCall 1,
            Action.assignEvent sampleXY,
            Action.pdfGenerateEvent mixedPlan.generatorCode
              (RooArgSet.assign bufferXYW
                sampleXY)] } ∧
    ∀ n e t, RooArgSet.find bufferXYW n = some e →
      RooArgSet.find sampleXY n = some t →
      RooArgSet.find
        (RooArgSet.assign bufferXYW sampleXY) n
        = some { e with value := t.value } :=
  sample_written_before_direct_generation mixedModel none [varX, varY, varW, varZ] bufferXYW
    false fixedSampler bufferXYW sampleXY 1
    mixedPlan (by decide) (by decide) (by decide) (fun _ _ => rfl)

/-- C8: in a valid context with a non-empty residual/uniform group,
(1) when the sampler returns no sample the failure is reported and the call
ends with the buffer exactly as it was;
(2) when it returns `subEvent`, the assignment `theEvent= *subEvent` follows the
sampler call, every field the buffer shares with the sample takes the sampled
value, and the buffer of the call is that buffer, handed to the model's
generator when `directVars` is non-empty. -/
theorem sampler_failure_leaves_buffer (m : RooAbsPdf) (fd : Option RooArgSet)
    (vars theEvent0 : RooArgSet) (verbose : Bool)
    (acceptReject : RooAcceptReject → Int → Option RooArgSet)
    (theEvent : RooArgSet) (remaining : Int) (p : GenerationPlan)
    (hp : generationPlan m fd vars = some p)
    (hother : p.residualVars ≠ [] ∨ p.uniformVars ≠ []) :
    ((∀ g, (RooGenContext.construct m vars theEvent0 verbose fd)._generator = some g →
        acceptReject g remaining = none) →
      RooGenContext.generateEvent m (RooGenContext.construct m vars theEvent0 verbose fd)
          acceptReject theEvent remaining =
        Except.ok { theEvent := theEvent,
                    actions := [Action.acceptRejectCall remaining,
                                Action.message Msg.acceptRejectFailed] }) ∧
    (∀ subEvent,
      (∀ g, (RooGenContext.construct m vars theEvent0 verbose fd)._generator = some g →
        acceptReject g remaining = some subEvent) →
      (∃ out, RooGenContext.generateEvent m
            (RooGenContext.construct m vars theEvent0 verbose fd)
            acceptReject theEvent remaining = Except.ok out ∧
          List.take 2 out.actions =
            [Action.acceptRejectCall remaining, Action.assignEvent subEvent] ∧
          out.theEvent =
            (if p.directVars = [] then RooArgSet.assign theEvent subEvent
             else m.generateEvent p.generatorCode (RooArgSet.assign theEvent subEvent))) ∧
      ∀ n e t, RooArgSet.find theEvent n = some e → RooArgSet.find subEvent n = some t →
        RooArgSet.find (RooArgSet.assign theEvent subEvent) n
          = some { e with value := t.value }) := by
  obtain ⟨cd, co, cc, g, cg⟩ := construct_of_plan m vars theEvent0 verbose fd p hp
  have hO : RooArgSet.getSize (RooArgSet.addAll p.residualVars p.uniformVars) > 0 := by
    rw [RooArgSet.getSize_pos_iff]
    intro e
    rcases (RooArgSet.addAll_eq_nil_iff _ _).1 e with ⟨e1, e2⟩
    rcases hother with h | h
    · exact h e1
    · exact h e2
  constructor
  · intro hnone
    unfold RooGenContext.generateEvent
    rw [co, if_pos hO, cg]
    simp only [hnone g cg]
  · intro subEvent hsome
    refine ⟨?_, fun n e t he ht => RooArgSet.find_assign_of_find theEvent subEvent n e t he ht⟩
    unfold RooGenContext.generateEvent
    rw [co, if_pos hO, cg]
    simp only [hsome g cg]
    unfold directPart
    rw [cd, cc]
    by_cases hD : p.directVars = []
    · have hD0 : ¬ (RooArgSet.getSize p.directVars > 0) := by
        rw [hD]; exact Nat.lt_irrefl 0
      rw [if_neg hD0, if_pos hD]
      exact ⟨_, rfl, rfl, rfl⟩
    · have hD1 : RooArgSet.getSize p.directVars > 0 := (RooArgSet.getSize_pos_iff _).2 hD
      rw [if_pos hD1, if_neg hD]
      exact ⟨_, rfl, rfl, rfl⟩

/-- C8 at `mixedModel`, with a sampler that fails and with one that returns
`x = 5, y = 6`. -/
theorem sampler_failure_leaves_buffer_witness :
    RooGenContext.generateEvent mixedModel
        (RooGenContext.construct mixedModel [varX, varY, varW, varZ] bufferXYW false none)
        failingSampler bufferXYW 1 =
      Except.ok { theEvent := bufferXYW,
                  actions := [Action.acceptRejectCall 1,
                              Action.message Msg.acceptRejectFailed] } ∧
    (∃ out, RooGenContext.generateEvent mixedModel
          (RooGenContext.construct mixedModel [varX, varY, varW, varZ] bufferXYW false none)
          fixedSampler bufferXYW 1 = Except.ok out ∧
        List.take 2 out.actions = [Action.acceptRejectCall 1, Action.assignEvent sampleXY] ∧
        out.theEvent =
          (if mixedPlan.directVars = [] then RooArgSet.assign bufferXYW sampleXY
           else mixedModel.generateEvent mixedPlan.generatorCode
             (RooArgSet.assign bufferXYW sampleXY))) ∧
      ∀ n e t, RooArgSet.find bufferXYW n = some e → RooArgSet.find sampleXY n = some t →
        RooArgSet.find (RooArgSet.assign bufferXYW sampleXY) n
          = some { e with value := t.value } :=
  ⟨(sampler_failure_leaves_buffer mixedModel none [varX, varY, varW, varZ] bufferXYW false
      failingSampler bufferXYW 1 mixedPlan (by decide) (by decide)).1 (fun _ _ => rfl),
    (sampler_failure_leaves_buffer mixedModel none [varX, varY, varW, varZ] bufferXYW false
      fixedSampler bufferXYW 1 mixedPlan (by decide) (by decide)).2 sampleXY (fun _ _ => rfl)⟩

/-- C9: in a valid context every call of `generateEvent` runs to its end, and
it calls the sampler exactly once, with the caller's `remaining`, when
`residualVars` or `uniformVars` is non-empty, and not at all when both are
empty. -/
theorem sampler_called_iff_group_nonempty (m : RooAbsPdf) (fd : Option RooArgSet)
    (vars theEvent0 : RooArgSet) (verbose : Bool)
    (acceptReject : RooAcceptReject → Int → Option RooArgSet)
    (theEvent : RooArgSet) (remaining : Int) (p : GenerationPlan)
    (hp : generationPlan m fd vars = some p) :
    ∃ out, RooGenContext.generateEvent m (RooGenContext.construct m vars theEvent0 verbose fd)
        acceptReject theEvent remaining = Except.ok out ∧
      (samplerCalls out.actions = [remaining] ↔
        (p.residualVars ≠ [] ∨ p.uniformVars ≠ [])) ∧
      (samplerCalls out.actions = [] ↔ (p.residualVars = [] ∧ p.uniformVars = [])) := by
  obtain ⟨cd, co, cc, g, cg⟩ := construct_of_plan m vars theEvent0 verbose fd p hp
  have hdp : ∀ (buffer : RooArgSet) (done : List Action),
      ∃ out, directPart m (RooGenContext.construct m vars theEvent0 verbose fd) buffer done
          = Except.ok out ∧ samplerCalls out.actions = samplerCalls done := by
    intro buffer done
    unfold directPart
    rw [cd, cc]
    by_cases hD : RooArgSet.getSize p.directVars > 0
    · rw [if_pos hD]
      refine ⟨_, rfl, ?_⟩
      show samplerCalls (done ++ [Action.pdfGenerateEvent p.generatorCode buffer])
        = samplerCalls done
      induction done with
      | nil => rfl
      | cons a l ih => cases a <;> simp [samplerCalls, ih]
    · rw [if_neg hD]
      exact ⟨_, rfl, rfl⟩
  by_cases hE : RooArgSet.addAll p.residualVars p.uniformVars = []
  · have hE2 := (RooArgSet.addAll_eq_nil_iff _ _).1 hE
    have hO : ¬ (RooArgSet.getSize (RooArgSet.addAll p.residualVars p.uniformVars) > 0) := by
      rw [hE]; exact Nat.lt_irrefl 0
    obtain ⟨out, ho, hc⟩ := hdp theEvent []
    refine ⟨out, ?_, ?_, ?_⟩
    · unfold RooGenContext.generateEvent
      rw [co, if_neg hO]
      exact ho
    · rw [hc]
      constructor
      · intro h; exact absurd h (by simp [samplerCalls])
      · rintro (h | h)
        · exact absurd hE2.1 h
        · exact absurd hE2.2 h
    · rw [hc]
      exact ⟨fun _ => hE2, fun _ => rfl⟩
  · have hO : RooArgSet.getSize (RooArgSet.addAll p.residualVars p.uniformVars) > 0 :=
      (RooArgSet.getSize_pos_iff _).2 hE
    have hne : p.residualVars ≠ [] ∨ p.uniformVars ≠ [] := by
      by_cases h1 : p.residualVars = []
      · right
        intro h2
        exact hE ((RooArgSet.addAll_eq_nil_iff _ _).2 ⟨h1, h2⟩)
      · exact Or.inl h1
    have hnot : ¬ (p.residualVars = [] ∧ p.uniformVars = []) := by
      rintro ⟨h1, h2⟩
      exact hE ((RooArgSet.addAll_eq_nil_iff _ _).2 ⟨h1, h2⟩)
    cases hs : acceptReject g remaining with
    | none =>
      refine ⟨{ theEvent := theEvent,
                actions := [Action.acceptRejectCall remaining,
                            Action.message Msg.acceptRejectFailed] }, ?_, ?_, ?_⟩
      · unfold RooGenContext.generateEvent
        rw [co, if_pos hO, cg]
        simp only [hs]
      · exact ⟨fun _ => hne, fun _ => rfl⟩
      · constructor
        · intro h; exact absurd h (by simp [samplerCalls])
        · intro h; exact absurd h hnot
    | some subEvent =>
      obtain ⟨out, ho, hc⟩ := hdp (RooArgSet.assign theEvent subEvent)
        [Action.acceptRejectCall remaining, Action.assignEvent subEvent]
      refine ⟨out, ?_, ?_, ?_⟩
      · unfold RooGenContext.generateEvent
        rw [co, if_pos hO, cg]
        simp only [hs]
        exact ho
      · rw [hc]
        exact ⟨fun _ => hne, fun _ => rfl⟩
      · rw [hc]
        constructor
        · intro h; exact absurd h (by simp [samplerCalls])
        · intro h; exact absurd h hnot

/-- C9 at `mixedModel`, where `residualVars` holds `x` and `y`. -/
theorem sampler_called_iff_group_nonempty_witness :
    ∃ out, RooGenContext.generateEvent mixedModel
        (RooGenContext.construct mixedModel [varX, varY, varW, varZ] bufferXYW false none)
        fixedSampler bufferXYW 4 = Except.ok out ∧
      (samplerCalls out.actions = [4] ↔
        (mixedPlan.residualVars ≠ [] ∨ mixedPlan.uniformVars ≠ [])) ∧
      (samplerCalls out.actions = [] ↔
        (mixedPlan.residualVars = [] ∧ mixedPlan.uniformVars = [])) :=
  sampler_called_iff_group_nonempty mixedModel none [varX, varY, varW, varZ] bufferXYW false
    fixedSampler bufferXYW 4 mixedPlan (by decide)

/-! ## Scenario 1 -/

/-- C10, refuted as stated: in the product `f(x,y) = g(x) * h(y)` the servers of
`f` are the factors `g` and `h`, so `findServer` finds neither `x` nor `y` and
both go to `_otherVars`, although the model's generator for `x, y` reports
`(7, x y)`. The generator is asked about the empty set, `directVars` is empty,
`residualVars` holds `x` and `y`, and `generateEvent` calls the sampler. -/
theorem product_of_factors_is_sampled :
    (∀ v ∈ [varX, varY], v.isDerived = false) ∧
    productModel.getGenerator [cloneX, cloneY] = (7, [cloneX, cloneY]) ∧
    productModel.dependsOn nodeG cloneX = true ∧ productModel.dependsOn nodeH cloneX = false ∧
    productModel.dependsOn nodeH cloneY = true ∧ productModel.dependsOn nodeG cloneY = false ∧
    tentativeDirect productModel none [varX, varY] = [] ∧
    generationPlan productModel none [varX, varY] =
      some { uniformVars := [], directVars := [], residualVars := [cloneX, cloneY],
             generatorCode := 0 } ∧
    RooGenContext.generateEvent productModel
        (RooGenContext.construct productModel [varX, varY] bufferXYW false none)
        fixedSampler bufferXYW 1 =
      Except.ok { theEvent := RooArgSet.assign bufferXYW sampleXY,
                  actions := [Action.acceptRejectCall 1, Action.assignEvent sampleXY] } :=
  ⟨by decide, rfl, rfl, rfl, rfl, rfl, rfl, rfl, rfl⟩

/-- C10, amended: when `x` and `y` are themselves servers of the model, no other
server of the model depends on either, and the model's generator for `x, y`
reports `(codeA, x y)`, construction yields `directVars = x y`, empty
`residualVars` and `uniformVars`, and `generateEvent` never calls the sampler:
it only runs the model's generator with `codeA`. -/
theorem direct_servers_generated_by_model (m : RooAbsPdf) (fd : Option RooArgSet)
    (x y ax ay dx dy : RooAbsArg) (theEvent0 : RooArgSet) (verbose : Bool)
    (acceptReject : RooAcceptReject → Int → Option RooArgSet)
    (theEvent : RooArgSet) (remaining codeA : Int)
    (hx : x.isDerived = false) (hy : y.isDerived = false) (hxy : x.name ≠ y.name)
    (hax : RooArgSet.find m.cloneSet x.name = some ax)
    (hay : RooArgSet.find m.cloneSet y.name = some ay)
    (hdx : m.findServer x.name = some dx) (hdy : m.findServer y.name = some dy)
    (hex : ∀ s ∈ m.serverList, s ≠ dx → m.dependsOn s ax = false)
    (hey : ∀ s ∈ m.serverList, s ≠ dy → m.dependsOn s ay = false)
    (hgen : m.getGenerator [ax, ay] = (codeA, [ax, ay])) :
    generationPlan m fd [x, y] =
      some { uniformVars := [], directVars := [ax, ay], residualVars := [],
             generatorCode := codeA } ∧
    RooGenContext.generateEvent m (RooGenContext.construct m [x, y] theEvent0 verbose fd)
        acceptReject theEvent remaining =
      Except.ok { theEvent := m.generateEvent codeA theEvent,
                  actions := [Action.pdfGenerateEvent codeA theEvent] } ∧
    samplerCalls [Action.pdfGenerateEvent codeA theEvent] = [] := by
  have hnx := RooArgSet.find_name hax
  have hny := RooArgSet.find_name hay
  have hcx : directAfterCheck m fd ax = some dx :=
    directAfterCheck_of_exclusive m fd ax dx (by rw [hnx]; exact hdx) hex
  have hcy : directAfterCheck m fd ay = some dy :=
    directAfterCheck_of_exclusive m fd ay dy (by rw [hny]; exact hdy) hey
  have hne : ax.name ≠ ay.name := by rw [hnx, hny]; exact hxy
  have hne2 : ay.name ≠ ax.name := fun e => hne e.symm
  have hscan : scanVars m fd [x, y] =
      { isValid := true, uniformVars := [], directVars := [ax, ay], otherVars := [],
        log := [] } := by
    unfold scanVars
    rw [scanLoop_cons_valid m fd x [y] _ rfl, scanStep_direct m fd x ax dx _ hx hax hcx,
      scanLoop_cons_valid m fd y [] _ rfl, scanStep_direct m fd y ay dy _ hy hay hcy]
    show ({ isValid := true, uniformVars := [],
            directVars := RooArgSet.add (RooArgSet.add [] ax) ay, otherVars := [],
            log := [] } : ScanState) = _
    rw [RooArgSet.add_two ax ay hne]
  have hfin : finalizeDirect m (scanVars m fd [x, y]) =
      { uniformVars := [], directVars := [ax, ay], residualVars := [],
        generatorCode := codeA } := by
    rw [hscan]
    simp [finalizeDirect, hgen, RooArgSet.remove, RooArgSet.addAll, RooArgSet.removeAll,
      RooArgSet.add, RooArgSet.contains, RooArgSet.find, hne, hne2]
  have hall : ∀ u ∈ [x, y], u.isDerived = false := by
    intro u hu
    rcases List.mem_cons.1 hu with h | h
    · rw [h]; exact hx
    · rw [List.mem_singleton.1 h]; exact hy
  have hp := generationPlan_valid m fd [x, y] hall
  rw [hfin] at hp
  obtain ⟨cd, co, cc, _⟩ := construct_of_plan m [x, y] theEvent0 verbose fd _ hp
  refine ⟨hp, ?_, rfl⟩
  unfold RooGenContext.generateEvent
  rw [co]
  unfold directPart
  rw [cd, cc]
  rfl

/-- C10, amended, at `flatModel`, whose servers are `x` and `y`. -/
theorem direct_servers_generated_by_model_witness :
    generationPlan flatModel none [varX, varY] =
      some { uniformVars := [], directVars := [cloneX, cloneY], residualVars := [],
             generatorCode := 7 } ∧
    RooGenContext.generateEvent flatModel
        (RooGenContext.construct flatModel [varX, varY] bufferXYW false none)
        fixedSampler bufferXYW 1 =
      Except.ok { theEvent := flatModel.generateEvent 7 bufferXYW,
                  actions := [Action.pdfGenerateEvent 7 bufferXYW] } ∧
    samplerCalls [Action.pdfGenerateEvent 7 bufferXYW] = [] :=
  direct_servers_generated_by_model flatModel none varX varY cloneX cloneY cloneX cloneY
    bufferXYW false fixedSampler bufferXYW 1 7 (by decide) (by decide) (by decide)
    (by decide) (by decide) (by decide) (by decide) (by decide) (by decide) (by decide)


/-! ## The sampler and the reduced density -/

/-- C11: in a valid context the sampler is constructed with `_otherVars` after
line 133, which is `residualVars` with `uniformVars` merged in, so it holds
exactly the names of those two sets. A requested variable `z` with no node in
the snapshot of the model is in that set, through `uniformVars` and not through
`residualVars`; and, the model's generator reporting as its contract says only
variables of the set it was asked about, `z` is not in `_directVars`. -/
theorem sampler_built_on_residual_and_uniform (m : RooAbsPdf) (fd : Option RooArgSet)
    (vars theEvent : RooArgSet) (verbose : Bool) (p : GenerationPlan)
    (hp : generationPlan m fd vars = some p) :
    (∃ f, (RooGenContext.construct m vars theEvent verbose fd)._generator =
        some { func := f, genVars := RooArgSet.addAll p.residualVars p.uniformVars,
               verbose := verbose } ∧
      (RooGenContext.construct m vars theEvent verbose fd)._acceptRejectFunc = some f) ∧
    (∀ n, RooArgSet.contains (RooArgSet.addAll p.residualVars p.uniformVars) n =
      (RooArgSet.contains p.residualVars n || RooArgSet.contains p.uniformVars n)) ∧
    ∀ z ∈ vars, RooArgSet.find m.cloneSet z.name = none →
      RooArgSet.contains (RooArgSet.addAll p.residualVars p.uniformVars) z.name = true ∧
      RooArgSet.contains p.uniformVars z.name = true ∧
      RooArgSet.contains p.residualVars z.name = false ∧
      (GeneratorReportsSubset m fd vars →
        RooArgSet.contains (RooGenContext.construct m vars theEvent verbose fd)._directVars
          z.name = false) := by
  obtain ⟨hf, hg⟩ := construct_sampler m vars theEvent verbose fd p hp
  obtain ⟨cd, _, _, _⟩ := construct_of_plan m vars theEvent verbose fd p hp
  refine ⟨⟨_, hg, hf⟩, fun n => RooArgSet.contains_addAll _ _ n, ?_⟩
  intro z hz habs
  obtain ⟨pu, pd, pr, pt⟩ := plan_sets m fd vars p hp z.name
  have hcl : classOf m fd z.name = VarClass.uniform := by
    unfold classOf; rw [habs]
  have hzv := RooArgSet.contains_of_mem hz
  have hU : RooArgSet.contains p.uniformVars z.name = true := by
    rw [pu, hzv, hcl]; rfl
  have hR : RooArgSet.contains p.residualVars z.name = false := by
    rw [pr, hzv, hcl]; rfl
  refine ⟨?_, hU, hR, ?_⟩
  · rw [RooArgSet.contains_addAll, hU]; simp
  · intro hgen
    rw [cd, pd]
    cases hG : RooArgSet.contains (generatedVars m fd vars) z.name with
    | false => rfl
    | true =>
      have h1 := hgen z.name hG
      rw [pt, hzv, hcl] at h1
      exact Bool.noConfusion h1

/-- C11 at `mixedModel` with the request `x, y, w, z`: the theorem there, and
its last part for `z`, the generator of `mixedModel` keeping to its contract. -/
theorem sampler_built_on_residual_and_uniform_witness :
    ((∃ f, (RooGenContext.construct mixedModel [varX, varY, varW, varZ]
          [varX, varY, varW, varZ] false none)._generator =
        some { func := f,
               genVars := RooArgSet.addAll mixedPlan.residualVars mixedPlan.uniformVars,
               verbose := false } ∧
      (RooGenContext.construct mixedModel [varX, varY, varW, varZ]
          [varX, varY, varW, varZ] false none)._acceptRejectFunc = some f) ∧
    (∀ n, RooArgSet.contains
        (RooArgSet.addAll mixedPlan.residualVars mixedPlan.uniformVars) n =
      (RooArgSet.contains mixedPlan.residualVars n ||
        RooArgSet.contains mixedPlan.uniformVars n)) ∧
    ∀ z ∈ [varX, varY, varW, varZ], RooArgSet.find mixedModel.cloneSet z.name = none →
      RooArgSet.contains
        (RooArgSet.addAll mixedPlan.residualVars mixedPlan.uniformVars) z.name = true ∧
      RooArgSet.contains mixedPlan.uniformVars z.name = true ∧
      RooArgSet.contains mixedPlan.residualVars z.name = false ∧
      (GeneratorReportsSubset mixedModel none [varX, varY, varW, varZ] →
        RooArgSet.contains
          (RooGenContext.construct mixedModel [varX, varY, varW, varZ]
            [varX, varY, varW, varZ] false none)._directVars z.name = false)) ∧
    RooArgSet.contains
      (RooGenContext.construct mixedModel [varX, varY, varW, varZ]
        [varX, varY, varW, varZ] false none)._directVars varZ.name = false :=
  ⟨sampler_built_on_residual_and_uniform mixedModel none [varX, varY, varW, varZ]
      [varX, varY, varW, varZ] false mixedPlan (by decide),
    ((sampler_built_on_residual_and_uniform mixedModel none [varX, varY, varW, varZ]
      [varX, varY, varW, varZ] false mixedPlan (by decide)).2.2 varZ (by decide)
      (by decide)).2.2.2 mixedModel_reports_subset⟩

/-- C12, refuted as stated: `mixedModel` depends on `x`, `y` and `w`. With `x`
alone requested, `getDependents(_theEvent)` reports `x` alone, `x` is residual
and the reduced density is integrated over nothing, while the model's full
dependency set without `residualVars` and `uniformVars` still holds `g`, `y`
and `w`. -/
theorem integration_set_misses_unrequested_dependents :
    (RooGenContext.construct mixedModel [varX] [varX] false none)._isValid = true ∧
    generationPlan mixedModel none [varX] =
      some { uniformVars := [], directVars := [], residualVars := [cloneX],
             generatorCode := 0 } ∧
    Option.map (fun f => f.intVars)
      (RooGenContext.construct mixedModel [varX] [varX] false none)._acceptRejectFunc
      = some [] ∧
    mixedModel.getDependents [varX] = [varX] ∧
    RooArgSet.remove (RooArgSet.remove mixedModel.dependencySet [cloneX]) [] =
      [nodeG, cloneY, cloneW] ∧
    mixedModel.dependsOn nodeG cloneY = true ∧
    mixedModel.findServer "w" = some cloneW := by
  decide

/-- C12, amended: in a valid context the set the reduced density is integrated
over is `getDependents(_theEvent)` without `residualVars`: the dependents the
model reports for the event, not its full dependency set. Those dependents
being nodes of the snapshot, removing `uniformVars` as well changes nothing,
and every variable integrated over is in the model's full dependency set when
it is not the model itself. When moreover the generator reports nothing and
every dependent reported is requested, every requested variable with a node in
the snapshot is in `residualVars` and the integration set is empty. -/
theorem integration_set_is_dependents_without_residual (m : RooAbsPdf)
    (fd : Option RooArgSet) (vars theEvent : RooArgSet) (verbose : Bool) (p : GenerationPlan)
    (hp : generationPlan m fd vars = some p)
    (hdep : DependentsInSnapshot m theEvent) :
    ∃ f, (RooGenContext.construct m vars theEvent verbose fd)._acceptRejectFunc = some f ∧
      f.intVars = RooArgSet.remove
        (RooArgSet.remove (m.getDependents theEvent) p.residualVars) p.uniformVars ∧
      f.intVars = RooArgSet.remove (m.getDependents theEvent) p.residualVars ∧
      (∀ n, RooArgSet.contains f.intVars n = true →
        RooArgSet.contains m.cloneSet n = true ∧
        (n ≠ m.name → RooArgSet.contains m.dependencySet n = true) ∧
        RooArgSet.contains p.residualVars n = false ∧
        RooArgSet.contains p.uniformVars n = false) ∧
      (generatedVars m fd vars = [] →
        (∀ n, RooArgSet.contains (m.getDependents theEvent) n = true →
          RooArgSet.contains vars n = true) →
        (∀ v ∈ vars, RooArgSet.contains m.cloneSet v.name = true →
          RooArgSet.contains p.residualVars v.name = true) ∧
        f.intVars = []) := by
  obtain ⟨hf, _⟩ := construct_sampler m vars theEvent verbose fd p hp
  -- no dependent of the model is a uniform variable
  have hnoU : ∀ n, RooArgSet.contains (m.getDependents theEvent) n = true →
      RooArgSet.contains p.uniformVars n = false := by
    intro n hn
    have hc := hdep n hn
    rw [(plan_sets m fd vars p hp n).1]
    cases hcl : classOf m fd n with
    | uniform =>
      rw [(classOf_uniform_iff m fd n).1 hcl] at hc
      exact Bool.noConfusion hc
    | direct => simp
    | other => simp
  -- with no generator every requested variable of the snapshot is residual
  have hres : generatedVars m fd vars = [] → ∀ n, RooArgSet.contains vars n = true →
      RooArgSet.contains m.cloneSet n = true → RooArgSet.contains p.residualVars n = true := by
    intro hG n hv hc
    rw [(plan_sets m fd vars p hp n).2.2.1, hG, hv, RooArgSet.contains_nil]
    cases hcl : classOf m fd n with
    | uniform =>
      rw [(classOf_uniform_iff m fd n).1 hcl] at hc
      exact Bool.noConfusion hc
    | direct => simp
    | other => simp
  refine ⟨_, hf, ?_, rfl, ?_, ?_⟩
  rotate_left
  · intro n hn
    have h1 : RooArgSet.contains
        (RooArgSet.remove (m.getDependents theEvent) p.residualVars) n = true := hn
    rw [RooArgSet.contains_remove] at h1
    simp only [Bool.and_eq_true, Bool.not_eq_true'] at h1
    refine ⟨hdep n h1.1, ?_, h1.2, hnoU n h1.1⟩
    intro hne
    exact RooArgSet.contains_dependencySet m n (hdep n h1.1) hne
  rotate_left
  · show RooArgSet.remove (m.getDependents theEvent) p.residualVars = _
    symm
    apply RooArgSet.remove_eq_self
    intro a ha
    exact hnoU a.name (RooArgSet.contains_of_mem (RooArgSet.mem_remove ha).1)
  · intro hG hreq
    refine ⟨fun v hv hc => hres hG v.name (RooArgSet.contains_of_mem hv) hc, ?_⟩
    show RooArgSet.remove (m.getDependents theEvent) p.residualVars = []
    apply RooArgSet.eq_nil_of_contains_false
    intro n
    rw [RooArgSet.contains_remove]
    cases hD : RooArgSet.contains (m.getDependents theEvent) n with
    | false => rfl
    | true => rw [hres hG n (hreq n hD) (hdep n hD)]; rfl

/-- The dependents `shyModel` reports are `x`, `y` and `w`, nodes of its snapshot. -/
theorem shyModel_dependents_in_snapshot :
    DependentsInSnapshot shyModel [varX, varY, varW] := by
  have e : shyModel.getDependents [varX, varY, varW] = [varX, varY, varW] := by decide
  unfold DependentsInSnapshot
  rw [e]
  intro n h
  rw [RooArgSet.contains_cons, RooArgSet.contains_cons, RooArgSet.contains_cons,
    RooArgSet.contains_nil] at h
  simp only [Bool.or_eq_true, beq_iff_eq, Bool.or_false] at h
  rcases h with h | h | h <;> subst h <;> decide

/-- C12, amended, at `shyModel`, which has no generator, with all its variables
requested (Scenario 3). -/
theorem integration_set_is_dependents_without_residual_witness :
    ∃ f, (RooGenContext.construct shyModel [varX, varY, varW] [varX, varY, varW] false
          none)._acceptRejectFunc = some f ∧
      f.intVars = RooArgSet.remove
        (RooArgSet.remove (shyModel.getDependents [varX, varY, varW])
          [cloneX, cloneY, cloneW]) [] ∧
      f.intVars = RooArgSet.remove (shyModel.getDependents [varX, varY, varW])
        [cloneX, cloneY, cloneW] ∧
      (∀ n, RooArgSet.contains f.intVars n = true →
        RooArgSet.contains shyModel.cloneSet n = true ∧
        (n ≠ shyModel.name → RooArgSet.contains shyModel.dependencySet n = true) ∧
        RooArgSet.contains [cloneX, cloneY, cloneW] n = false ∧
        RooArgSet.contains [] n = false) ∧
      (generatedVars shyModel none [varX, varY, varW] = [] →
        (∀ n, RooArgSet.contains (shyModel.getDependents [varX, varY, varW]) n = true →
          RooArgSet.contains [varX, varY, varW] n = true) →
        (∀ v ∈ [varX, varY, varW], RooArgSet.contains shyModel.cloneSet v.name = true →
          RooArgSet.contains [cloneX, cloneY, cloneW] v.name = true) ∧
        f.intVars = []) :=
  integration_set_is_dependents_without_residual shyModel none [varX, varY, varW]
    [varX, varY, varW] false
    { uniformVars := [], directVars := [], residualVars := [cloneX, cloneY, cloneW],
      generatorCode := 0 }
    (by decide) shyModel_dependents_in_snapshot

/-! ## Errors -/

/-- C13, refuted as stated: of the request `d, z, e`, in which `d` and `e` are
derived, only `d` is reported. The loop of line 58 tests `_isValid`, so after
`d` nothing is scanned: `e` is not reported and `z` gets no warning. -/
theorem second_derived_variable_not_reported :
    varD.isDerived = true ∧ varE.isDerived = true ∧
    (RooGenContext.construct mixedModel [varD, varZ, varE] bufferXYW false none).isValid
      = false ∧
    (RooGenContext.construct mixedModel [varD, varZ, varE] bufferXYW false none).log =
      [Msg.cannotGenerateDerived "d", Msg.constructorFailed] ∧
    derivedErrors
      (RooGenContext.construct mixedModel [varD, varZ, varE] bufferXYW false none).log
      = ["d"] ∧
    uniformWarnings
      (RooGenContext.construct mixedModel [varD, varZ, varE] bufferXYW false none).log
      = [] := by
  decide

/-- C13, amended: when a requested variable is found to be derived,
classification marks the context invalid, reports that variable and stops:
the variables requested after the first derived one `d` are not scanned, and
`d` is the only derived variable reported before construction fails. -/
theorem scan_stops_at_first_derived (m : RooAbsPdf) (fd : Option RooArgSet)
    (before after theEvent : RooArgSet) (verbose : Bool) (d : RooAbsArg)
    (hbefore : ∀ u ∈ before, u.isDerived = false)
    (hd : d.isDerived = true) :
    (RooGenContext.construct m (before ++ d :: after) theEvent verbose fd).isValid = false ∧
    (RooGenContext.construct m (before ++ d :: after) theEvent verbose fd).log =
      (scanVars m fd before).log ++ [Msg.cannotGenerateDerived d.name, Msg.constructorFailed] ∧
    derivedErrors (RooGenContext.construct m (before ++ d :: after) theEvent verbose fd).log
      = [d.name] ∧
    RooGenContext.construct m (before ++ d :: after) theEvent verbose fd =
      RooGenContext.construct m (before ++ [d]) theEvent verbose fd := by
  have hs := scanVars_stops m fd before after d hbefore hd
  have hs0 := scanVars_stops m fd before [] d hbefore hd
  have hlog : (RooGenContext.construct m (before ++ d :: after) theEvent verbose fd).log =
      (scanVars m fd before).log ++
        [Msg.cannotGenerateDerived d.name, Msg.constructorFailed] := by
    unfold RooGenContext.construct
    rw [hs]
    simp
  refine ⟨?_, hlog, ?_, ?_⟩
  · unfold RooGenContext.isValid RooGenContext.construct
    rw [hs]
    rfl
  · rw [hlog, derivedErrors_append]
    have h0 : derivedErrors (scanVars m fd before).log = [] :=
      scanLoop_derivedErrors m fd before hbefore _ rfl
    rw [h0]
    rfl
  · unfold RooGenContext.construct
    rw [hs, hs0]
    simp

/-- C13, amended, at `mixedModel` with the request `x, d, z, e`. -/
theorem scan_stops_at_first_derived_witness :
    (RooGenContext.construct mixedModel ([varX] ++ varD :: [varZ, varE]) bufferXYW false
      none).isValid = false ∧
    (RooGenContext.construct mixedModel ([varX] ++ varD :: [varZ, varE]) bufferXYW false
      none).log =
      (scanVars mixedModel none [varX]).log ++
        [Msg.cannotGenerateDerived varD.name, Msg.constructorFailed] ∧
    derivedErrors
      (RooGenContext.construct mixedModel ([varX] ++ varD :: [varZ, varE]) bufferXYW false
        none).log = [varD.name] ∧
    RooGenContext.construct mixedModel ([varX] ++ varD :: [varZ, varE]) bufferXYW false none =
      RooGenContext.construct mixedModel ([varX] ++ [varD]) bufferXYW false none :=
  scan_stops_at_first_derived mixedModel none [varX] [varZ, varE] bufferXYW false varD
    (by decide) (by decide)

/-- C14, refuted as stated: in the valid context of `mixedModel` for the request
`x, y, w, z`, `_directVars` holds `w`; in a call in which the sampler returns no
sample, `generateEvent` returns at line 164 and the model's generator is not
invoked. -/
theorem no_direct_generation_after_sampler_failure :
    (RooGenContext.construct mixedModel [varX, varY, varW, varZ] bufferXYW false
      none)._isValid = true ∧
    (RooGenContext.construct mixedModel [varX, varY, varW, varZ] bufferXYW false
      none)._directVars = [cloneW] ∧
    RooGenContext.generateEvent mixedModel
        (RooGenContext.construct mixedModel [varX, varY, varW, varZ] bufferXYW false none)
        failingSampler bufferXYW 1 =
      Except.ok { theEvent := bufferXYW,
                  actions := [Action.acceptRejectCall 1,
                              Action.message Msg.acceptRejectFailed] } ∧
    generatorCalls [Action.acceptRejectCall 1, Action.message Msg.acceptRejectFailed] = [] := by
  refine ⟨by decide, by decide, rfl, rfl⟩

/-- C14, amended: in a valid context with non-empty `directVars`, a call of
`generateEvent` invokes the model's generator once, with the finalized code,
when the sampler is not needed or returns a sample; when the sampler returns no
sample, the call ends after the failure message, the model's generator is not
invoked and the buffer is unchanged. -/
theorem direct_generation_needs_sample (m : RooAbsPdf) (fd : Option RooArgSet)
    (vars theEvent0 : RooArgSet) (verbose : Bool)
    (acceptReject : RooAcceptReject → Int → Option RooArgSet)
    (theEvent : RooArgSet) (remaining : Int) (p : GenerationPlan)
    (hp : generationPlan m fd vars = some p)
    (hdirect : p.directVars ≠ []) :
    ((p.residualVars = [] ∧ p.uniformVars = []) →
      RooGenContext.generateEvent m (RooGenContext.construct m vars theEvent0 verbose fd)
          acceptReject theEvent remaining =
        Except.ok { theEvent := m.generateEvent p.generatorCode theEvent,
                    actions := [Action.pdfGenerateEvent p.generatorCode theEvent] }) ∧
    (∀ subEvent, (p.residualVars ≠ [] ∨ p.uniformVars ≠ []) →
      (∀ g, (RooGenContext.construct m vars theEvent0 verbose fd)._generator = some g →
        acceptReject g remaining = some subEvent) →
      ∃ out, RooGenContext.generateEvent m
            (RooGenContext.construct m vars theEvent0 verbose fd)
            acceptReject theEvent remaining = Except.ok out ∧
          generatorCalls out.actions = [p.generatorCode]) ∧
    ((p.residualVars ≠ [] ∨ p.uniformVars ≠ []) →
      (∀ g, (RooGenContext.construct m vars theEvent0 verbose fd)._generator = some g →
        acceptReject g remaining = none) →
      ∃ out, RooGenContext.generateEvent m
            (RooGenContext.construct m vars theEvent0 verbose fd)
            acceptReject theEvent remaining = Except.ok out ∧
          out.theEvent = theEvent ∧
          out.actions = [Action.acceptRejectCall remaining,
                         Action.message Msg.acceptRejectFailed] ∧
          generatorCalls out.actions = []) := by
  obtain ⟨cd, co, cc, g, cg⟩ := construct_of_plan m vars theEvent0 verbose fd p hp
  have hD : RooArgSet.getSize p.directVars > 0 := (RooArgSet.getSize_pos_iff _).2 hdirect
  have hgroup : (p.residualVars ≠ [] ∨ p.uniformVars ≠ []) →
      RooArgSet.getSize (RooArgSet.addAll p.residualVars p.uniformVars) > 0 := by
    intro hother
    rw [RooArgSet.getSize_pos_iff]
    intro e
    rcases (RooArgSet.addAll_eq_nil_iff _ _).1 e with ⟨e1, e2⟩
    rcases hother with h | h
    · exact h e1
    · exact h e2
  refine ⟨?_, ?_, ?_⟩
  · rintro ⟨h1, h2⟩
    have hE : RooArgSet.addAll p.residualVars p.uniformVars = [] :=
      (RooArgSet.addAll_eq_nil_iff _ _).2 ⟨h1, h2⟩
    have hO : ¬ (RooArgSet.getSize (RooArgSet.addAll p.residualVars p.uniformVars) > 0) := by
      rw [hE]; exact Nat.lt_irrefl 0
    unfold RooGenContext.generateEvent
    rw [co, if_neg hO]
    unfold directPart
    rw [cd, if_pos hD, cc]
    rfl
  · intro subEvent hother hsome
    refine ⟨{ theEvent := m.generateEvent p.generatorCode (RooArgSet.assign theEvent subEvent),
              actions := [Action.acceptRejectCall remaining, Action.assignEvent subEvent,
                Action.pdfGenerateEvent p.generatorCode
                  (RooArgSet.assign theEvent subEvent)] }, ?_, rfl⟩
    unfold RooGenContext.generateEvent
    rw [co, if_pos (hgroup hother), cg]
    simp only [hsome g cg]
    unfold directPart
    rw [cd, if_pos hD, cc]
    rfl
  · intro hother hnone
    refine ⟨{ theEvent := theEvent,
              actions := [Action.acceptRejectCall remaining,
                          Action.message Msg.acceptRejectFailed] }, ?_, rfl, rfl, rfl⟩
    unfold RooGenContext.generateEvent
    rw [co, if_pos (hgroup hother), cg]
    simp only [hnone g cg]

/-- C14, amended, at `mixedModel` with the request `x, y, w, z`. -/
theorem direct_generation_needs_sample_witness :
    (∃ out, RooGenContext.generateEvent mixedModel
          (RooGenContext.construct mixedModel [varX, varY, varW, varZ] bufferXYW false none)
          fixedSampler bufferXYW 1 = Except.ok out ∧
        generatorCalls out.actions = [mixedPlan.generatorCode]) ∧
    (∃ out, RooGenContext.generateEvent mixedModel
          (RooGenContext.construct mixedModel [varX, varY, varW, varZ] bufferXYW false none)
          failingSampler bufferXYW 1 = Except.ok out ∧
        out.theEvent = bufferXYW ∧
        out.actions = [Action.acceptRejectCall 1, Action.message Msg.acceptRejectFailed] ∧
        generatorCalls out.actions = []) :=
  ⟨(direct_generation_needs_sample mixedModel none [varX, varY, varW, varZ] bufferXYW false
      fixedSampler bufferXYW 1 mixedPlan (by decide) (by decide)).2.1 sampleXY
      (by decide) (fun _ _ => rfl),
    (direct_generation_needs_sample mixedModel none [varX, varY, varW, varZ] bufferXYW false
      failingSampler bufferXYW 1 mixedPlan (by decide) (by decide)).2.2
      (by decide) (fun _ _ => rfl)⟩

/-- C15, refuted as stated: the reduced density of `mixedModel` for the request
`x, y, w, z` integrates over `w`, whose range is unbounded, so the integral is
not well-defined; the constructor builds it and the sampler on it all the
same, and the context reports itself valid. -/
theorem integral_not_checked :
    Option.map (fun f => RooArgSet.contains f.intVars "w")
      (RooGenContext.construct mixedModel [varX, varY, varW, varZ]
        [varX, varY, varW, varZ] false none)._acceptRejectFunc = some true ∧
    Option.map integralWellDefined
      (RooGenContext.construct mixedModel [varX, varY, varW, varZ]
        [varX, varY, varW, varZ] false none)._acceptRejectFunc = some false ∧
    Option.isSome
      (RooGenContext.construct mixedModel [varX, varY, varW, varZ]
        [varX, varY, varW, varZ] false none)._generator = true ∧
    (RooGenContext.construct mixedModel [varX, varY, varW, varZ]
      [varX, varY, varW, varZ] false none).isValid = true := by
  decide

/-- C15, amended: the constructor does not test the reduced density. When no
requested variable is derived the context reports itself valid and holds the
integral and a sampler built on it, also when the integral is not well-defined
(`wellDefined` stands for any test of the integral). Construction fails only
for a derived requested variable. -/
theorem validity_ignores_reduced_density (m : RooAbsPdf) (fd : Option RooArgSet)
    (vars theEvent : RooArgSet) (verbose : Bool) (wellDefined : RooRealIntegral → Bool)
    (hvalid : ∀ u ∈ vars, u.isDerived = false)
    (hbad : ∀ f, (RooGenContext.construct m vars theEvent verbose fd)._acceptRejectFunc
      = some f → wellDefined f = false) :
    (RooGenContext.construct m vars theEvent verbose fd).isValid = true ∧
    ∃ f, (RooGenContext.construct m vars theEvent verbose fd)._acceptRejectFunc = some f ∧
      wellDefined f = false ∧
      ∃ g, (RooGenContext.construct m vars theEvent verbose fd)._generator = some g ∧
        g.func = f := by
  have hp := generationPlan_valid m fd vars hvalid
  obtain ⟨hf, hg⟩ := construct_sampler m vars theEvent verbose fd _ hp
  obtain ⟨hv, _⟩ := construct_valid m vars theEvent verbose fd hvalid
  exact ⟨hv, _, hf, hbad _ hf, _, hg, rfl⟩

/-- C15, amended, at `mixedModel`, whose reduced density integrates over `w`. -/
theorem validity_ignores_reduced_density_witness :
    (RooGenContext.construct mixedModel [varX, varY, varW, varZ]
      [varX, varY, varW, varZ] false none).isValid = true ∧
    ∃ f, (RooGenContext.construct mixedModel [varX, varY, varW, varZ]
        [varX, varY, varW, varZ] false none)._acceptRejectFunc = some f ∧
      integralWellDefined f = false ∧
      ∃ g, (RooGenContext.construct mixedModel [varX, varY, varW, varZ]
          [varX, varY, varW, varZ] false none)._generator = some g ∧
        g.func = f :=
  validity_ignores_reduced_density mixedModel none [varX, varY, varW, varZ]
    [varX, varY, varW, varZ] false integralWellDefined (by decide)
    (fun f hf => by
      have e : Option.map integralWellDefined
          (RooGenContext.construct mixedModel [varX, varY, varW, varZ]
            [varX, varY, varW, varZ] false none)._acceptRejectFunc = some false := by decide
      rw [hf] at e
      simpa using e)

/-- C16: `initGenerator` is idempotent: a second call with the same event buffer
leaves the inputs of the model bound as the first call bound them and the error
counter at its reset value. -/
theorem initGenerator_idempotent (c : RooGenContext) (s : PdfCloneState)
    (theEvent : RooArgSet) :
    RooGenContext.initGenerator c (RooGenContext.initGenerator c s theEvent) theEvent =
      RooGenContext.initGenerator c s theEvent := by
  unfold RooGenContext.initGenerator resetErrorCounters recursiveRedirectServers
  simp only [List.map_map]
  congr 1
  apply List.map_congr_left
  intro i _
  simp only [Function.comp]
  cases hf : RooArgSet.find theEvent i.name with
  | none => simp [hf]
  | some e =>
    have hn := RooArgSet.find_name hf
    simp [hn, hf]

/-- The effect of `initGenerator` on a model still bound to its own clones: the
inputs `x`, `y` and `w` are bound to the fields of the buffer and the error
counter is back at its reset value. -/
theorem initGenerator_rebinds_inputs :
    RooGenContext.initGenerator
        (RooGenContext.construct mixedModel [varX, varY, varW, varZ] bufferXYW false none)
        freshState bufferXYW =
      { inputs := bufferXYW, errorCount := 10, resetValue := 10 } := by
  decide

/-! ## Servers, the force-direct set and the order of the request -/

/-- C17: in a valid context a requested variable `v` that has a node in the
snapshot but is not a server of the model is not in the set handed to
`getGenerator` and is in `residualVars`, for every force-direct set, also one
that names `v`. -/
theorem indirect_variable_is_residual (m : RooAbsPdf) (fd : Option RooArgSet)
    (vars : RooArgSet) (v a : RooAbsArg)
    (hvalid : ∀ u ∈ vars, u.isDerived = false)
    (hv : v ∈ vars)
    (hnode : RooArgSet.find m.cloneSet v.name = some a)
    (hns : m.findServer v.name = none) :
    RooArgSet.contains (tentativeDirect m fd vars) v.name = false ∧
    ∃ p, generationPlan m fd vars = some p ∧
      RooArgSet.contains p.residualVars v.name = true := by
  have hp := generationPlan_valid m fd vars hvalid
  obtain ⟨_, _, pr, pt⟩ := plan_sets m fd vars _ hp v.name
  have hc := classOf_of_not_server m fd v.name a hnode hns
  have hvv := RooArgSet.contains_of_mem hv
  refine ⟨?_, _, hp, ?_⟩
  · rw [pt, hc]; simp
  · rw [pr, hvv, hc]; rfl

/-- C17 at `mixedModel`: `y` is read through `g` only, and the force-direct set
names it. -/
theorem indirect_variable_is_residual_witness :
    RooArgSet.contains
      (tentativeDirect mixedModel (some [varY]) [varX, varY, varW, varZ]) varY.name = false ∧
    ∃ p, generationPlan mixedModel (some [varY]) [varX, varY, varW, varZ] = some p ∧
      RooArgSet.contains p.residualVars varY.name = true :=
  indirect_variable_is_residual mixedModel (some [varY]) [varX, varY, varW, varZ] varY cloneY
    (by decide) (by decide) (by decide) (by decide)

/-- C18: in a valid context let the requested variable `v` have the node `a` in
the snapshot and be the server `d` of the model. When the force-direct set
names `v`, `v` is in the set handed to `getGenerator`, whether or not another
server depends on it. With no force-direct set, or an empty one, `v` is in
that set exactly when no server other than `d` depends on `a`. -/
theorem force_direct_skips_exclusivity (m : RooAbsPdf) (vars fdset : RooArgSet)
    (v a d : RooAbsArg)
    (hvalid : ∀ u ∈ vars, u.isDerived = false)
    (hv : v ∈ vars)
    (hnode : RooArgSet.find m.cloneSet v.name = some a)
    (hserver : m.findServer v.name = some d) :
    (RooArgSet.contains fdset v.name = true →
      RooArgSet.contains (tentativeDirect m (some fdset) vars) v.name = true) ∧
    (∀ fd : Option RooArgSet, fd = none ∨ fd = some [] →
      (RooArgSet.contains (tentativeDirect m fd vars) v.name = true ↔
        ¬ ∃ s ∈ m.serverList, s ≠ d ∧ m.dependsOn s a = true)) := by
  have hvv := RooArgSet.contains_of_mem hv
  constructor
  · intro hforce
    have hp := generationPlan_valid m (some fdset) vars hvalid
    rw [(plan_sets m (some fdset) vars _ hp v.name).2.2.2, hvv,
      classOf_forced m fdset v.name a d hnode hserver hforce]
    rfl
  · intro fd hfd
    have hck : checksExclusivity fd d = true := by
      rcases hfd with h | h <;> subst h <;> rfl
    have hp := generationPlan_valid m fd vars hvalid
    rw [(plan_sets m fd vars _ hp v.name).2.2.2, hvv, ← otherServerDepends_iff,
      Bool.true_and, decide_eq_true_eq, classOf_checked m fd v.name a d hnode hserver hck]
    cases otherServerDepends m a d m.serverList <;> simp

/-- C18 at `mixedModel`: `x` is a server of `f`, the server `g` depends on it,
and the force-direct set names it. -/
theorem force_direct_skips_exclusivity_witness :
    (RooArgSet.contains [varX] varX.name = true →
      RooArgSet.contains
        (tentativeDirect mixedModel (some [varX]) [varX, varY, varW, varZ]) varX.name = true) ∧
    (∀ fd : Option RooArgSet, fd = none ∨ fd = some [] →
      (RooArgSet.contains (tentativeDirect mixedModel fd [varX, varY, varW, varZ]) varX.name
          = true ↔
        ¬ ∃ s ∈ mixedModel.serverList, s ≠ cloneX ∧ mixedModel.dependsOn s cloneX = true)) :=
  force_direct_skips_exclusivity mixedModel [varX, varY, varW, varZ] [varX] varX cloneX cloneX
    (by decide) (by decide) (by decide) (by decide)

/-- C19, refuted as stated: the generator of `firstOnlyModel` reports the first
variable of the set it is asked about. For the requests `x, y` and `y, x` the
set handed to it holds the same two variables, in the order of the request, and
the finalized plans differ: `directVars` is `x` for the one and `y` for the
other. -/
theorem plan_depends_on_request_order :
    List.Perm [varX, varY] [varY, varX] ∧
    tentativeDirect firstOnlyModel none [varX, varY] = [cloneX, cloneY] ∧
    tentativeDirect firstOnlyModel none [varY, varX] = [cloneY, cloneX] ∧
    generationPlan firstOnlyModel none [varX, varY] =
      some { uniformVars := [], directVars := [cloneX], residualVars := [cloneY],
             generatorCode := 1 } ∧
    generationPlan firstOnlyModel none [varY, varX] =
      some { uniformVars := [], directVars := [cloneY], residualVars := [cloneX],
             generatorCode := 1 } := by
  refine ⟨List.Perm.swap varY varX [], by decide, by decide, by decide, by decide⟩

/-- C19, amended: for two orderings of the same requested variables, none of
them derived, construction yields `uniformVars` with the same names and hands
`getGenerator` sets with the same names; the finalized plans have the same
code and the same names in `directVars` and `residualVars` when the model's
generator answers by the names of the set it is asked about and not by their
order. -/
theorem plan_independent_of_request_order (m : RooAbsPdf) (fd : Option RooArgSet)
    (vars1 vars2 : RooArgSet)
    (hperm : List.Perm vars1 vars2)
    (hvalid : ∀ u ∈ vars1, u.isDerived = false) :
    ∃ p1 p2, generationPlan m fd vars1 = some p1 ∧ generationPlan m fd vars2 = some p2 ∧
      (∀ n, RooArgSet.contains p1.uniformVars n = RooArgSet.contains p2.uniformVars n) ∧
      (∀ n, RooArgSet.contains (tentativeDirect m fd vars1) n =
        RooArgSet.contains (tentativeDirect m fd vars2) n) ∧
      (GeneratorIgnoresOrder m →
        p1.generatorCode = p2.generatorCode ∧
        (∀ n, RooArgSet.contains p1.directVars n = RooArgSet.contains p2.directVars n) ∧
        (∀ n, RooArgSet.contains p1.residualVars n = RooArgSet.contains p2.residualVars n)) := by
  have hvalid2 : ∀ u ∈ vars2, u.isDerived = false :=
    fun u hu => hvalid u ((List.Perm.mem_iff hperm).2 hu)
  have hp1 := generationPlan_valid m fd vars1 hvalid
  have hp2 := generationPlan_valid m fd vars2 hvalid2
  have hT : ∀ n, RooArgSet.contains (tentativeDirect m fd vars1) n =
      RooArgSet.contains (tentativeDirect m fd vars2) n := by
    intro n
    rw [(plan_sets m fd vars1 _ hp1 n).2.2.2, (plan_sets m fd vars2 _ hp2 n).2.2.2,
      RooArgSet.contains_perm hperm n]
  refine ⟨_, _, hp1, hp2, ?_, hT, ?_⟩
  · intro n
    rw [(plan_sets m fd vars1 _ hp1 n).1, (plan_sets m fd vars2 _ hp2 n).1,
      RooArgSet.contains_perm hperm n]
  · intro hgen
    obtain ⟨hcode, hG⟩ := hgen (tentativeDirect m fd vars1) (tentativeDirect m fd vars2) hT
    refine ⟨hcode, ?_, ?_⟩
    · intro n
      rw [(plan_sets m fd vars1 _ hp1 n).2.1, (plan_sets m fd vars2 _ hp2 n).2.1]
      exact hG n
    · intro n
      rw [(plan_sets m fd vars1 _ hp1 n).2.2.1, (plan_sets m fd vars2 _ hp2 n).2.2.1,
        RooArgSet.contains_perm hperm n]
      have := hG n
      unfold generatedVars
      rw [this]

/-- C19, amended, at `mixedModel` with the request `x, y, w, z` and its reverse. -/
theorem plan_independent_of_request_order_witness :
    ∃ p1 p2, generationPlan mixedModel none [varX, varY, varW, varZ] = some p1 ∧
      generationPlan mixedModel none [varZ, varW, varY, varX] = some p2 ∧
      (∀ n, RooArgSet.contains p1.uniformVars n = RooArgSet.contains p2.uniformVars n) ∧
      (∀ n, RooArgSet.contains (tentativeDirect mixedModel none [varX, varY, varW, varZ]) n =
        RooArgSet.contains (tentativeDirect mixedModel none [varZ, varW, varY, varX]) n) ∧
      (GeneratorIgnoresOrder mixedModel →
        p1.generatorCode = p2.generatorCode ∧
        (∀ n, RooArgSet.contains p1.directVars n = RooArgSet.contains p2.directVars n) ∧
        (∀ n, RooArgSet.contains p1.residualVars n = RooArgSet.contains p2.residualVars n)) :=
  plan_independent_of_request_order mixedModel none [varX, varY, varW, varZ]
    [varZ, varW, varY, varX] (List.reverse_perm [varZ, varW, varY, varX]) (by decide)

/-- C20: in a valid context whose model's dependents are nodes of its snapshot,
every requested variable in the set the reduced density is integrated over is
in the finalized `_directVars` and is not in the set the sampler draws. The
generator need not report a subset of what it was asked for this to hold. -/
theorem integrated_requested_variables_are_direct (m : RooAbsPdf) (fd : Option RooArgSet)
    (vars theEvent : RooArgSet) (verbose : Bool) (p : GenerationPlan)
    (hp : generationPlan m fd vars = some p)
    (hdep : DependentsInSnapshot m theEvent) :
    ∃ f g, (RooGenContext.construct m vars theEvent verbose fd)._acceptRejectFunc = some f ∧
      (RooGenContext.construct m vars theEvent verbose fd)._generator = some g ∧
      g.func = f ∧
      ∀ v ∈ vars, RooArgSet.contains f.intVars v.name = true →
        RooArgSet.contains (RooGenContext.construct m vars theEvent verbose fd)._directVars
          v.name = true ∧
        RooArgSet.contains g.genVars v.name = false := by
  obtain ⟨hf, hg⟩ := construct_sampler m vars theEvent verbose fd p hp
  obtain ⟨cd, _, _, _⟩ := construct_of_plan m vars theEvent verbose fd p hp
  refine ⟨_, _, hf, hg, rfl, ?_⟩
  intro v hv hint
  have hvv := RooArgSet.contains_of_mem hv
  obtain ⟨pu, pd, pr, _⟩ := plan_sets m fd vars p hp v.name
  have hint2 : RooArgSet.contains (m.getDependents theEvent) v.name = true ∧
      RooArgSet.contains p.residualVars v.name = false := by
    have h1 : RooArgSet.contains
        (RooArgSet.remove (m.getDependents theEvent) p.residualVars) v.name = true := hint
    rw [RooArgSet.contains_remove] at h1
    simpa using h1
  have hsnap := hdep v.name hint2.1
  have hR := hint2.2
  have hU : RooArgSet.contains p.uniformVars v.name = false := by
    rw [pu]
    cases hcl : classOf m fd v.name with
    | uniform =>
      rw [(classOf_uniform_iff m fd v.name).1 hcl] at hsnap
      exact Bool.noConfusion hsnap
    | direct => simp
    | other => simp
  refine ⟨?_, ?_⟩
  · rw [cd, pd]
    rw [pr, hvv] at hR
    cases hcl : classOf m fd v.name with
    | uniform =>
      rw [(classOf_uniform_iff m fd v.name).1 hcl] at hsnap
      exact Bool.noConfusion hsnap
    | direct =>
      rw [hcl] at hR
      cases hG : RooArgSet.contains (generatedVars m fd vars) v.name with
      | true => rfl
      | false => rw [hG] at hR; simp at hR
    | other => rw [hcl] at hR; simp at hR
  · show RooArgSet.contains (RooArgSet.addAll p.residualVars p.uniformVars) v.name = false
    rw [RooArgSet.contains_addAll, hR, hU]
    rfl

/-- C20 at `mixedModel` with the request `x, y, w, z`: the reduced density
integrates over `w`, the variable the model generates itself. -/
theorem integrated_requested_variables_are_direct_witness :
    ∃ f g, (RooGenContext.construct mixedModel [varX, varY, varW, varZ]
          [varX, varY, varW, varZ] false none)._acceptRejectFunc = some f ∧
      (RooGenContext.construct mixedModel [varX, varY, varW, varZ]
          [varX, varY, varW, varZ] false none)._generator = some g ∧
      g.func = f ∧
      ∀ v ∈ [varX, varY, varW, varZ], RooArgSet.contains f.intVars v.name = true →
        RooArgSet.contains
          (RooGenContext.construct mixedModel [varX, varY, varW, varZ]
            [varX, varY, varW, varZ] false none)._directVars v.name = true ∧
        RooArgSet.contains g.genVars v.name = false :=
  integrated_requested_variables_are_direct mixedModel none [varX, varY, varW, varZ]
    [varX, varY, varW, varZ] false mixedPlan (by decide)
    (mixedModelWith_dependents_in_snapshot _ _)
end RooFit
